import Mathlib

/-!
SPIMemory: the command sequencing and state-guard core (`src/FLASHIO.cpp`).

A shallow embedding of the private functions of `SPIFlash` defined in
`FLASHIO.cpp`, and theorems about them.

* Machine integers are natural numbers; where the C++ arithmetic can wrap, the
  reduction modulo `2^32`, `2^16` or `2^8` is written out.
* The object's fields become the record `SPIFlash`; every member function is a
  function from the record to a result and the updated record.
* The bus transport (`xfer`, `SPI.beginTransaction`, the chip-select macros) and
  the clock `millis()` are outside the file.  Every call into the transport is
  appended to the log `wire`; what the device shifts back and what the clock
  reads are given by a `Transport` oracle, indexed by the number of calls so far.
* The `do ... while` polls have no static bound, so functions that poll take a
  fuel argument and return `none` when it runs out.
* `RUNDIAGNOSTIC` is taken as not defined (`_troubleshoot` only reports), and the
  platform branches of `_startSPIBus`, `_nextByte` and `_endSPI` are one transport
  call each.
-/

namespace SPIMemory

/-! ## Constants of the header -/

/-- The macro constants that `FLASHIO.cpp` takes from `SPIFlash.h`.  The header
is not part of the sources, so the constants are parameters of the model: error
codes, opcodes, manufacturer identifiers, status-register masks, filler bytes,
the default arguments of `_notBusy` and `_writeEnable`, and whether `HIGHSPEED`
is defined. -/
structure Defines where
  CALLBEGIN : Nat
  UNKNOWNCHIP : Nat
  UNKNOWNCAP : Nat
  CHIPBUSY : Nat
  OUTOFBOUNDS : Nat
  CANTENWRITE : Nat
  SYSSUSPEND : Nat
  NORESPONSE : Nat
  PAGEPROG : Nat
  READDATA : Nat
  FASTREAD : Nat
  READSTAT1 : Nat
  READSTAT2 : Nat
  WRITESTATEN : Nat
  WRITESTAT : Nat
  WRITEENABLE : Nat
  WRITEDISABLE : Nat
  JEDECID : Nat
  MANID : Nat
  READSFDP : Nat
  WINBOND_MANID : Nat
  MICROCHIP_MANID : Nat
  BUSY : Nat
  WRTEN : Nat
  SUS : Nat
  WSE : Nat
  WSP : Nat
  DUMMYBYTE : Nat
  NULLBYTE : Nat
  BUSY_TIMEOUT : Nat
  WRITEENABLE_TIMEOUT : Nat
  HIGHSPEED : Bool

/-- Modelled from the spec: the macro `KB8` of the absent header, the divisor of
the coarse erase-time estimate, which the spec gives as `capacity / 8192`. -/
def KB8 : Nat := 8192

/-- The device table of the absent header: the parallel arrays `_capID`,
`_memSize` and `_eraseTime`.  `_capID` is an array of bytes, so that
`sizeof(_capID)` is its number of entries. -/
structure DeviceTable where
  _capID : List Nat
  _memSize : List Nat
  _eraseTime : List Nat

/-! ## State -/

/-- The descriptor `_chip` (the struct's declaration is in the header).  The
field `supported` receives the manufacturer byte and is compared with the
manufacturer constants, so it is an integer field; `false` is stored as `0`. -/
structure chipID where
  manufacturerID : Nat
  memoryTypeID : Nat
  capacityID : Nat
  supported : Nat
  sfdp : Nat
  capacity : Nat
  eraseTime : Nat

/-- One call into the bus transport. -/
inductive BusCall where
  | beginTransaction
  | endTransaction
  | chipSelect
  | chipDeselect
  | xfer (out : Nat)
  deriving DecidableEq, Repr

/-- The fields of `SPIFlash` that `FLASHIO.cpp` reads or writes, and the record
of its dealings with the outside: `wire` logs the transport calls in order,
`xfers` counts the bytes shifted and `ticks` the readings of `millis()`. -/
structure SPIFlash where
  _chip : chipID
  errorcode : Nat
  state : Nat
  pageOverflow : Bool
  _currentAddress : Nat
  SPIBusState : Bool
  wire : List BusCall
  xfers : Nat
  ticks : Nat

/-- What the outside answers: `miso n` is the byte the device shifts back on the
`n`-th transfer, `clock n` the value of the `n`-th reading of `millis()`. -/
structure Transport where
  miso : Nat → Nat
  clock : Nat → Nat

/-! ## Address translation and the bounds guard -/

/-- `SPIFlash::_getAddress(uint16_t page_number, uint8_t offset)`: the arguments
are converted to 16 and 8 bits, the sum is computed in 32 bits. -/
def _getAddress (page_number offset : Nat) : Nat :=
  let address := page_number % 2 ^ 16
  ((address <<< 8) % 2 ^ 32 + offset % 2 ^ 8) % 2 ^ 32

/-- The `for` loop of `_addressCheck`, with `i` the loop variable and the first
argument `size - i`, the number of iterations left (`i < size < 2^32`, so `i++`
does not wrap).  `some r` is a `return r` from inside the loop, `none` is the
loop running to its end. -/
def _addressCheck_for (K : Defines) (s : SPIFlash) (address : Nat) :
    Nat → Nat → Option (Bool × SPIFlash)
  | 0, _ => none
  | left + 1, i =>
    if (address + i) % 2 ^ 32 ≥ s._chip.capacity then
      if !s.pageOverflow then
        some (false, { s with errorcode := K.OUTOFBOUNDS })
      else
        some (true, { s with _currentAddress := 0 })
    else
      _addressCheck_for K s address left (i + 1)

/-- `SPIFlash::_addressCheck(uint32_t address, uint32_t size)`. -/
def _addressCheck (K : Defines) (s : SPIFlash) (address size : Nat) : Bool × SPIFlash :=
  if s.errorcode = K.UNKNOWNCAP ∨ s.errorcode = K.NORESPONSE then
    (false, s)
  else if s._chip.eraseTime = 0 then
    (false, { s with errorcode := K.CALLBEGIN })
  else
    match _addressCheck_for K s address size 0 with
    | some r => r
    | none => (true, { s with _currentAddress := address })

/-! ## The transport and the clock -/

/-- One full-duplex byte transfer `xfer(data)`: the byte sent is logged, the byte
received is the oracle's answer to this transfer. -/
def xfer (E : Transport) (s : SPIFlash) (data : Nat) : Nat × SPIFlash :=
  (E.miso s.xfers % 2 ^ 8,
    { s with wire := s.wire ++ [BusCall.xfer (data % 2 ^ 8)], xfers := s.xfers + 1 })

/-- One reading of `millis()`, a 32-bit value. -/
def millis (E : Transport) (s : SPIFlash) : Nat × SPIFlash :=
  (E.clock s.ticks % 2 ^ 32, { s with ticks := s.ticks + 1 })

/-- The macro `CHIP_SELECT`. -/
def CHIP_SELECT (s : SPIFlash) : SPIFlash :=
  { s with wire := s.wire ++ [BusCall.chipSelect] }

/-- The macro `CHIP_DESELECT`. -/
def CHIP_DESELECT (s : SPIFlash) : SPIFlash :=
  { s with wire := s.wire ++ [BusCall.chipDeselect] }

/-- `SPIFlash::_nextByte(uint8_t data)`. -/
def _nextByte (E : Transport) (s : SPIFlash) (data : Nat) : Nat × SPIFlash :=
  xfer E s data

/-- `SPIFlash::_transferAddress`: the cursor's bits 23..16, 15..8 and 7..0. -/
def _transferAddress (E : Transport) (s : SPIFlash) : SPIFlash :=
  let s := (_nextByte E s (s._currentAddress >>> 16)).2
  let s := (_nextByte E s (s._currentAddress >>> 8)).2
  (_nextByte E s s._currentAddress).2

/-- `SPIFlash::_startSPIBus`: the platform-specific opening of a bus session is
one transport call; the session-open flag is set. -/
def _startSPIBus (s : SPIFlash) : SPIFlash :=
  { s with wire := s.wire ++ [BusCall.beginTransaction], SPIBusState := true }

/-- `SPIFlash::_beginSPI(uint8_t opcode)`. -/
def _beginSPI (K : Defines) (E : Transport) (s : SPIFlash) (opcode : Nat) : SPIFlash :=
  let s := if !s.SPIBusState then _startSPIBus s else s
  let s := CHIP_SELECT s
  if opcode = K.FASTREAD then
    let s := (_nextByte E s opcode).2
    let s := (_nextByte E s K.DUMMYBYTE).2
    _transferAddress E s
  else if opcode = K.READDATA then
    let s := (_nextByte E s opcode).2
    _transferAddress E s
  else if opcode = K.PAGEPROG then
    let s := (_nextByte E s opcode).2
    _transferAddress E s
  else
    (_nextByte E s opcode).2

/-- `SPIFlash::_endSPI`. -/
def _endSPI (s : SPIFlash) : SPIFlash :=
  let s := CHIP_DESELECT s
  { s with wire := s.wire ++ [BusCall.endTransaction], SPIBusState := false }

/-! ## Status poller -/

/-- `SPIFlash::_readStat1`. -/
def _readStat1 (K : Defines) (E : Transport) (s : SPIFlash) : Nat × SPIFlash :=
  let s := _beginSPI K E s K.READSTAT1
  let r := _nextByte E s K.NULLBYTE
  (r.1, CHIP_DESELECT r.2)

/-- `SPIFlash::_readStat2`. -/
def _readStat2 (K : Defines) (E : Transport) (s : SPIFlash) : Nat × SPIFlash :=
  let s := _beginSPI K E s K.READSTAT2
  let r := _nextByte E s K.NULLBYTE
  let r := _nextByte E r.2 K.NULLBYTE
  (r.1, CHIP_DESELECT r.2)

/-- `SPIFlash::_noSuspend`.  For a manufacturer that is neither of the two cases
the C++ function reaches its end without a `return`: the result is `none`. -/
def _noSuspend (K : Defines) (E : Transport) (s : SPIFlash) : Option Bool × SPIFlash :=
  if s._chip.manufacturerID = K.WINBOND_MANID then
    let r := _readStat2 K E s
    if r.1 &&& K.SUS ≠ 0 then
      (some false, { r.2 with errorcode := K.SYSSUSPEND })
    else
      (some true, r.2)
  else if s._chip.manufacturerID = K.MICROCHIP_MANID then
    let r := _readStat1 K E s
    if r.1 &&& K.WSE ≠ 0 then
      (some false, { r.2 with errorcode := K.SYSSUSPEND })
    else
      let r := _readStat1 K E r.2
      if r.1 &&& K.WSP ≠ 0 then
        (some false, { r.2 with errorcode := K.SYSSUSPEND })
      else
        (some true, r.2)
  else
    (none, s)

/-- The `do ... while (state & BUSY)` loop of `_notBusy`; `none` is running out
of fuel. -/
def _notBusy_do (K : Defines) (E : Transport) (timeout startTime : Nat) :
    Nat → SPIFlash → Option (Bool × SPIFlash)
  | 0, _ => none
  | fuel + 1, s =>
    let r := _readStat1 K E s
    let s := { r.2 with state := r.1 }
    let t := millis E s
    let s := t.2
    if (t.1 + 2 ^ 32 - startTime) % 2 ^ 32 > timeout then
      some (false, _endSPI { s with errorcode := K.CHIPBUSY })
    else if s.state &&& K.BUSY ≠ 0 then
      _notBusy_do K E timeout startTime fuel s
    else
      some (true, s)

/-- `SPIFlash::_notBusy(uint32_t timeout)`. -/
def _notBusy (K : Defines) (E : Transport) (fuel : Nat) (s : SPIFlash) (timeout : Nat) :
    Option (Bool × SPIFlash) :=
  let t := millis E s
  _notBusy_do K E timeout t.1 fuel t.2

/-- The `do ... while (!(state & WRTEN))` loop of `_writeEnable`. -/
def _writeEnable_do (K : Defines) (E : Transport) (timeout startTime : Nat) :
    Nat → SPIFlash → Option (Bool × SPIFlash)
  | 0, _ => none
  | fuel + 1, s =>
    let s := CHIP_DESELECT (_beginSPI K E s K.WRITEENABLE)
    let r := _readStat1 K E s
    let s := { r.2 with state := r.1 }
    let t := millis E s
    let s := t.2
    if (t.1 + 2 ^ 32 - startTime) % 2 ^ 32 > timeout then
      some (false, _endSPI { s with errorcode := K.CANTENWRITE })
    else if s.state &&& K.WRTEN = 0 then
      _writeEnable_do K E timeout startTime fuel s
    else
      some (true, s)

/-- `SPIFlash::_writeEnable(uint32_t timeout)`. -/
def _writeEnable (K : Defines) (E : Transport) (fuel : Nat) (s : SPIFlash) (timeout : Nat) :
    Option (Bool × SPIFlash) :=
  let t := millis E s
  let s := t.2
  if s.state &&& K.WRTEN = 0 then
    _writeEnable_do K E timeout t.1 fuel s
  else
    some (true, s)

/-- `SPIFlash::_writeDisable`. -/
def _writeDisable (K : Defines) (E : Transport) (s : SPIFlash) : Bool × SPIFlash :=
  (true, CHIP_DESELECT (_beginSPI K E s K.WRITEDISABLE))

/-- The `for (uint16_t i = 0; i < size; i++)` loop of `_notPrevWritten` and the
two lines after it; `i++` wraps at `2^16`, `none` is running out of fuel. -/
def _notPrevWritten_for (K : Defines) (E : Transport) (size : Nat) :
    Nat → Nat → SPIFlash → Option (Bool × SPIFlash)
  | 0, _, _ => none
  | fuel + 1, i, s =>
    if i < size then
      let r := _nextByte E s K.NULLBYTE
      if r.1 ≠ 0xFF then
        some (false, CHIP_DESELECT r.2)
      else
        _notPrevWritten_for K E size fuel ((i + 1) % 2 ^ 16) r.2
    else
      some (true, CHIP_DESELECT s)

/-- `SPIFlash::_notPrevWritten(uint32_t address, uint32_t size)`; the function
does not use `address`. -/
def _notPrevWritten (K : Defines) (E : Transport) (fuel : Nat) (s : SPIFlash)
    (_address size : Nat) : Option (Bool × SPIFlash) :=
  _notPrevWritten_for K E size fuel 0 (_beginSPI K E s K.READDATA)

/-! ## Chip identity resolver -/

/-- The command frame of `_getJedecId`: the lines from `_beginSPI(JEDECID)` to
`CHIP_DESELECT`, which store the three bytes shifted back. -/
def _getJedecId_read (K : Defines) (E : Transport) (s : SPIFlash) : SPIFlash :=
  let s := _beginSPI K E s K.JEDECID
  let r := _nextByte E s K.NULLBYTE
  let s := { r.2 with _chip := { r.2._chip with manufacturerID := r.1 } }
  let r := _nextByte E s K.NULLBYTE
  let s := { r.2 with _chip := { r.2._chip with memoryTypeID := r.1 } }
  let r := _nextByte E s K.NULLBYTE
  let s := { r.2 with _chip := { r.2._chip with capacityID := r.1 } }
  CHIP_DESELECT s

/-- `SPIFlash::_getJedecId`. -/
def _getJedecId (K : Defines) (E : Transport) (fuel : Nat) (s : SPIFlash) :
    Option (Bool × SPIFlash) :=
  match _notBusy K E fuel s K.BUSY_TIMEOUT with
  | none => none
  | some (false, s) => some (false, s)
  | some (true, s) =>
    let s := _getJedecId_read K E s
    if s._chip.manufacturerID = 0 ∨ s._chip.memoryTypeID = 0 ∨ s._chip.capacityID = 0 then
      some (false, { s with errorcode := K.NORESPONSE })
    else
      some (true, s)

/-- The loop `for (uint8_t i = 0; i < sizeof(_capID); i++)` of `_chipID`; `i++`
wraps at `2^8`, `none` is running out of fuel.  The loop has no `break`: every
matching entry is assigned in turn. -/
def _chipID_for (T : DeviceTable) : Nat → Nat → SPIFlash → Option SPIFlash
  | 0, _, _ => none
  | fuel + 1, i, s =>
    if i < T._capID.length then
      let s :=
        if s._chip.capacityID = T._capID.getD i 0 then
          { s with _chip := { s._chip with
              capacity := T._memSize.getD i 0, eraseTime := T._eraseTime.getD i 0 } }
        else s
      _chipID_for T fuel ((i + 1) % 2 ^ 8) s
    else
      some s

/-- The status-register unlock that `_chipID` performs for `MICROCHIP_MANID`. -/
def _chipID_unlock (K : Defines) (E : Transport) (s : SPIFlash) : SPIFlash :=
  let r := _readStat1 K E s
  let _stat1 := r.1 &&& 0xC3
  let s := CHIP_DESELECT (_beginSPI K E r.2 K.WRITESTATEN)
  let s := _beginSPI K E s K.WRITESTAT
  let s := (_nextByte E s _stat1).2
  CHIP_DESELECT s

/-- `SPIFlash::_chipID`. -/
def _chipID (K : Defines) (T : DeviceTable) (E : Transport) (fuel : Nat) (s : SPIFlash) :
    Option (Bool × SPIFlash) :=
  match _getJedecId K E fuel s with
  | none => none
  | some (false, s) => some (false, s)
  | some (true, s) =>
    let s := if s._chip.manufacturerID = K.MICROCHIP_MANID then _chipID_unlock K E s else s
    if s._chip.capacity = 0 then
      let s := { s with _chip := { s._chip with supported := s._chip.manufacturerID } }
      if s._chip.supported = K.WINBOND_MANID ∨ s._chip.supported = K.MICROCHIP_MANID then
        match _chipID_for T fuel 0 s with
        | none => none
        | some s => some (true, s)
      else
        some (false, { s with errorcode := K.UNKNOWNCAP })
    else
      some (true, { s with
        _chip := { s._chip with eraseTime := s._chip.capacity / KB8, supported := 0 },
        errorcode := K.UNKNOWNCHIP })

/-! ## Command sequencer: the prepare gate -/

/-- `SPIFlash::_prep(uint8_t opcode, uint32_t address, uint32_t size)`. -/
def _prep (K : Defines) (E : Transport) (fuel : Nat) (s : SPIFlash)
    (opcode address size : Nat) : Option (Bool × SPIFlash) :=
  if opcode = K.PAGEPROG then
    match _addressCheck K s address size with
    | (false, s) => some (false, s)
    | (true, s) =>
      match _notBusy K E fuel s K.BUSY_TIMEOUT with
      | none => none
      | some (false, s) => some (false, s)
      | some (true, s) =>
        match _writeEnable K E fuel s K.WRITEENABLE_TIMEOUT with
        | none => none
        | some (false, s) => some (false, s)
        | some (true, s) =>
          if K.HIGHSPEED then
            some (true, s)
          else
            match _notPrevWritten K E fuel s address size with
            | none => none
            | some (false, s) => some (false, s)
            | some (true, s) => some (true, s)
  else
    match _addressCheck K s address size with
    | (false, s) => some (false, s)
    | (true, s) =>
      match _notBusy K E fuel s K.BUSY_TIMEOUT with
      | none => none
      | some (false, s) => some (false, s)
      | some (true, s) => some (true, s)

/-- `SPIFlash::_prep(uint8_t opcode, uint32_t page_number, uint8_t offset,
uint32_t size)`. -/
def _prep_page (K : Defines) (E : Transport) (fuel : Nat) (s : SPIFlash)
    (opcode page_number offset size : Nat) : Option (Bool × SPIFlash) :=
  let address := _getAddress page_number offset
  _prep K E fuel s opcode address size

/-! ## Vocabulary of the statements -/

/-- The part of the object that no transport call and no clock reading touches:
the descriptor, the last-error code, the overflow policy and the cursor. -/
def SPIFlash.regs (s : SPIFlash) : chipID × Nat × Bool × Nat :=
  (s._chip, s.errorcode, s.pageOverflow, s._currentAddress)

/-- The JEDEC response seen from state `s`: byte `k` (0 manufacturer, 1 memory
type, 2 capacity code) that the device shifts back after the command frame
`_beginSPI(JEDECID)` issued from `s`. -/
def jedecByte (K : Defines) (E : Transport) (s : SPIFlash) (k : Nat) : Nat :=
  E.miso ((_beginSPI K E s K.JEDECID).xfers + k) % 2 ^ 8

/-! ## Concrete instances used to evaluate the model -/

/-- A choice of the header's constants with pairwise distinct error codes and
opcodes, for evaluating the model. -/
def sampleDefines : Defines where
  CALLBEGIN := 1
  UNKNOWNCHIP := 2
  UNKNOWNCAP := 3
  CHIPBUSY := 4
  OUTOFBOUNDS := 5
  CANTENWRITE := 6
  SYSSUSPEND := 9
  NORESPONSE := 12
  PAGEPROG := 0x02
  READDATA := 0x03
  FASTREAD := 0x0B
  READSTAT1 := 0x05
  READSTAT2 := 0x35
  WRITESTATEN := 0x50
  WRITESTAT := 0x01
  WRITEENABLE := 0x06
  WRITEDISABLE := 0x04
  JEDECID := 0x9F
  MANID := 0x90
  READSFDP := 0x5A
  WINBOND_MANID := 0xEF
  MICROCHIP_MANID := 0xBF
  BUSY := 0x01
  WRTEN := 0x02
  SUS := 0x80
  WSE := 0x04
  WSP := 0x08
  DUMMYBYTE := 0xEE
  NULLBYTE := 0x00
  BUSY_TIMEOUT := 1000
  WRITEENABLE_TIMEOUT := 10
  HIGHSPEED := false

/-- A three-entry device table for evaluating the model. -/
def sampleTable : DeviceTable where
  _capID := [0x14, 0x15, 0x16]
  _memSize := [1048576, 2097152, 4194304]
  _eraseTime := [6000, 10000, 15000]

/-- A freshly constructed object: nothing identified, no error, bus closed. -/
def freshFlash : SPIFlash where
  _chip := ⟨0, 0, 0, 0, 0, 0, 0⟩
  errorcode := 0
  state := 0
  pageOverflow := false
  _currentAddress := 0
  SPIBusState := false
  wire := []
  xfers := 0
  ticks := 0

/-- An identified 1 KiB device, for evaluating the bounds guard. -/
def smallFlash (pageOverflow : Bool) : SPIFlash :=
  { freshFlash with
    _chip := ⟨0xEF, 0x40, 0x0A, 0xEF, 0, 1024, 1000⟩, pageOverflow := pageOverflow }

/-- An object constructed with the user-declared capacity `c`. -/
def declaredFlash (c : Nat) : SPIFlash :=
  { freshFlash with _chip := ⟨0, 0, 0, 0, 0, c, 0⟩ }

/-- The object `s` after one busy-poll that found status byte 0 at once, started
with the bus closed: one session opened, one READSTAT1 frame on the wire, two
bytes shifted, the clock read twice. -/
def polled (s : SPIFlash) : SPIFlash :=
  { s with
    state := 0
    SPIBusState := true
    wire := s.wire ++ [BusCall.beginTransaction, BusCall.chipSelect, BusCall.xfer 0x05,
      BusCall.xfer 0x00, BusCall.chipDeselect]
    xfers := s.xfers + 2
    ticks := s.ticks + 2 }

/-- A floating bus: every transfer shifts back 0, the clock stands still. -/
def floatingBus : Transport := ⟨fun _ => 0, fun _ => 0⟩

/-- A responding device: status byte 0 (transfer 1), then the JEDEC response
`m, t, c` on transfers 3, 4 and 5; the clock stands still. -/
def respondingDevice (m t c : Nat) : Transport :=
  ⟨fun n => if n = 3 then m else if n = 4 then t else if n = 5 then c else 0, fun _ => 0⟩

/-- A device whose status register reads 0x02 (not busy, write-enable latch set)
and whose memory reads 0x00 everywhere: nothing of it is erased. -/
def writtenDevice : Transport := ⟨fun n => if n = 1 then 0x02 else 0, fun _ => 0⟩

/-- A bus that floats during a first identification (transfers 0 to 5) and on
which a Winbond device with capacity code 0x15 answers the second one
(JEDEC response on transfers 9, 10 and 11). -/
def lateDevice : Transport :=
  ⟨fun n => if n = 9 then 0xEF else if n = 10 then 0x40 else if n = 11 then 0x15 else 0,
    fun _ => 0⟩

/-- The state after one round of a poll: status register 1 read and cached in
`state`, then the clock read. -/
def pollStep (K : Defines) (E : Transport) (s : SPIFlash) : SPIFlash :=
  (millis E { (_readStat1 K E s).2 with state := (_readStat1 K E s).1 }).2

/-- The status byte of round `k` (from 0) of a poll whose first READSTAT1 frame
starts at transfer `x`: each frame is the opcode and one status byte. -/
def statusAt (E : Transport) (x k : Nat) : Nat :=
  E.miso (x + 2 * k + 1) % 2 ^ 8

/-- The elapsed time that round `k` (from 0) of a poll computes, in 32-bit
arithmetic, when the start time is `start` and the first round reads the clock
at reading number `tick`. -/
def elapsedAt (E : Transport) (start tick k : Nat) : Nat :=
  (E.clock (tick + k) % 2 ^ 32 + 2 ^ 32 - start) % 2 ^ 32

/-- The status byte that round `k` of `_notBusy`, called in state `s`, reads. -/
def statusRead (E : Transport) (s : SPIFlash) (k : Nat) : Nat :=
  statusAt E s.xfers k

/-- The elapsed time that round `k` of `_notBusy`, called in state `s`, compares
with the timeout: the start time is the clock reading taken on entry. -/
def elapsed (E : Transport) (s : SPIFlash) (k : Nat) : Nat :=
  elapsedAt E (E.clock s.ticks % 2 ^ 32) (s.ticks + 1) k

/-- A device that is ready at once (every status byte reads 0) behind a slow
clock: the reading taken on entry is 0, every later reading is 5000. -/
def slowClock : Transport := ⟨fun _ => 0, fun n => if n = 0 then 0 else 5000⟩

/-- A device that stays busy (every byte reads 0x01) while the clock advances by
400 per reading. -/
def busyDevice : Transport := ⟨fun _ => 0x01, fun n => 400 * n⟩

/-- A fully erased device: every byte reads 0xFF. -/
def erasedDevice : Transport := ⟨fun _ => 0xFF, fun _ => 0⟩

/-- The number of session openings (`SPI.beginTransaction`) on a transport log. -/
def opens (w : List BusCall) : Nat := w.count BusCall.beginTransaction

/-- The number of session closings (`SPI.endTransaction`) on a transport log. -/
def closes (w : List BusCall) : Nat := w.count BusCall.endTransaction

/-- What the object and the transport know of the bus session: the session-open
flag, the openings and the closings so far. -/
def SPIFlash.session (s : SPIFlash) : Bool × Nat × Nat :=
  (s.SPIBusState, opens s.wire, closes s.wire)

/-- The bus session is closed: the flag is false and every opening on the log
has its closing. -/
def SPIFlash.busClosed (s : SPIFlash) : Prop :=
  s.SPIBusState = false ∧ opens s.wire = closes s.wire

/-- A bus session is open: the flag is true and exactly one opening on the log
has no closing. -/
def SPIFlash.busOpen (s : SPIFlash) : Prop :=
  s.SPIBusState = true ∧ opens s.wire = closes s.wire + 1

/-- The state after one round of the write-enable poll: the WRITEENABLE command,
status register 1 read and cached in `state`, then the clock read. -/
def enableStep (K : Defines) (E : Transport) (s : SPIFlash) : SPIFlash :=
  pollStep K E (CHIP_DESELECT (_beginSPI K E s K.WRITEENABLE))

/-! ## Lemmas on the bounds guard -/

/-- The loop of `_addressCheck` runs to its end when no inspected byte is at or
past the capacity. -/
theorem addressCheck_for_none (K : Defines) (s : SPIFlash) (address : Nat) :
    ∀ (left i : Nat), (∀ j, j < left → (address + (i + j)) % 2 ^ 32 < s._chip.capacity) →
      _addressCheck_for K s address left i = none := by
  intro left
  induction left with
  | zero => intro i _; rfl
  | succ n ih =>
    intro i h
    have h0 := h 0 (Nat.succ_pos n)
    simp only [Nat.add_zero] at h0
    unfold _addressCheck_for
    rw [if_neg (by omega)]
    apply ih
    intro j hj
    have := h (j + 1) (by omega)
    rwa [show i + 1 + j = i + (j + 1) by omega]

/-- The loop of `_addressCheck` returns at the first inspected byte at or past
the capacity, with the outcome the overflow policy prescribes. -/
theorem addressCheck_for_hit (K : Defines) (s : SPIFlash) (address : Nat) :
    ∀ (left i j : Nat), j < left → (address + (i + j)) % 2 ^ 32 ≥ s._chip.capacity →
      _addressCheck_for K s address left i =
        if !s.pageOverflow then some (false, { s with errorcode := K.OUTOFBOUNDS })
        else some (true, { s with _currentAddress := 0 }) := by
  intro left
  induction left with
  | zero => intro i j hj; omega
  | succ n ih =>
    intro i j hj h
    unfold _addressCheck_for
    by_cases hc : (address + i) % 2 ^ 32 ≥ s._chip.capacity
    · rw [if_pos hc]
    · rw [if_neg hc]
      cases j with
      | zero => simp only [Nat.add_zero] at h; exact absurd h hc
      | succ m =>
        apply ih (i + 1) m (by omega)
        rwa [show i + 1 + m = i + (m + 1) by omega]

/-- A range that holds a byte at or past the capacity makes the loop inspect
one, in 32-bit arithmetic as well. -/
theorem range_hit (cap address size : Nat) (hcap : cap < 2 ^ 32) (ha : address < 2 ^ 32)
    (h : ∃ i, i < size ∧ address + i ≥ cap) :
    ∃ j, j < size ∧ (address + (0 + j)) % 2 ^ 32 ≥ cap := by
  obtain ⟨i, hi, hge⟩ := h
  by_cases hac : address ≥ cap
  · refine ⟨0, by omega, ?_⟩
    simp only [Nat.add_zero]
    rw [Nat.mod_eq_of_lt ha]
    exact hac
  · refine ⟨cap - address, by omega, ?_⟩
    rw [show address + (0 + (cap - address)) = cap by omega, Nat.mod_eq_of_lt hcap]

/-- The bounds guard on an identified device whose requested range holds a byte
at or past the capacity. -/
theorem addressCheck_hit (K : Defines) (s : SPIFlash) (address size : Nat)
    (he1 : s.errorcode ≠ K.UNKNOWNCAP) (he2 : s.errorcode ≠ K.NORESPONSE)
    (hid : s._chip.eraseTime ≠ 0) (hcap : s._chip.capacity < 2 ^ 32) (ha : address < 2 ^ 32)
    (h : ∃ i, i < size ∧ address + i ≥ s._chip.capacity) :
    _addressCheck K s address size =
      if !s.pageOverflow then (false, { s with errorcode := K.OUTOFBOUNDS })
      else (true, { s with _currentAddress := 0 }) := by
  obtain ⟨j, hj, hge⟩ := range_hit _ _ _ hcap ha h
  unfold _addressCheck
  rw [if_neg (by simp [he1, he2]), if_neg hid, addressCheck_for_hit K s address size 0 j hj hge]
  cases s.pageOverflow <;> rfl

/-- The bounds guard on an identified device whose requested range ends at or
before the capacity. -/
theorem addressCheck_inside (K : Defines) (s : SPIFlash) (address size : Nat)
    (he1 : s.errorcode ≠ K.UNKNOWNCAP) (he2 : s.errorcode ≠ K.NORESPONSE)
    (hid : s._chip.eraseTime ≠ 0) (hcap : s._chip.capacity < 2 ^ 32)
    (h : address + size ≤ s._chip.capacity) :
    _addressCheck K s address size = (true, { s with _currentAddress := address }) := by
  unfold _addressCheck
  rw [if_neg (by simp [he1, he2]), if_neg hid, addressCheck_for_none K s address size 0]
  intro j hj
  rw [Nat.mod_eq_of_lt (by omega)]
  omega

/-- When the bounds guard fails, `_prep` returns the guard's result at once. -/
theorem prep_of_addressCheck_false (K : Defines) (E : Transport) (fuel : Nat) (s : SPIFlash)
    (opcode address size : Nat) (h : (_addressCheck K s address size).1 = false) :
    _prep K E fuel s opcode address size = some (false, (_addressCheck K s address size).2) := by
  unfold _prep
  rcases hr : _addressCheck K s address size with ⟨b, s1⟩
  rw [hr] at h
  simp only at h
  subst h
  split <;> rfl

/-- The bounds guard never calls the transport or the clock and never touches
the session-open flag. -/
theorem addressCheck_frame (K : Defines) (s : SPIFlash) (address size : Nat) :
    (_addressCheck K s address size).2.wire = s.wire ∧
    (_addressCheck K s address size).2.xfers = s.xfers ∧
    (_addressCheck K s address size).2.ticks = s.ticks ∧
    (_addressCheck K s address size).2.SPIBusState = s.SPIBusState := by
  have hfor : ∀ (left i : Nat) (r : Bool × SPIFlash),
      _addressCheck_for K s address left i = some r →
      r.2.wire = s.wire ∧ r.2.xfers = s.xfers ∧ r.2.ticks = s.ticks ∧
        r.2.SPIBusState = s.SPIBusState := by
    intro left
    induction left with
    | zero => intro i r h; simp [_addressCheck_for] at h
    | succ n ih =>
      intro i r h
      unfold _addressCheck_for at h
      split at h
      · split at h <;> (cases h; simp)
      · exact ih _ _ h
  unfold _addressCheck
  split
  · simp
  · split
    · simp
    · split
      · rename_i r hr
        exact hfor _ _ _ hr
      · simp

/-! ## The bounds guard: claims C1 to C5 -/

/-- C1, as stated, fails for an empty request: on an identified 1 KiB device
with page overflow disallowed, `address = 2000` and `size = 0` satisfy
`address + size > capacity`, yet `_addressCheck` returns true, sets the cursor
to 2000 and leaves the last-error code alone. -/
theorem C1_empty_request_passes :
    (smallFlash false)._chip.eraseTime ≠ 0 ∧
    (smallFlash false).errorcode ≠ sampleDefines.UNKNOWNCAP ∧
    (smallFlash false).errorcode ≠ sampleDefines.NORESPONSE ∧
    (smallFlash false).pageOverflow = false ∧
    2000 + 0 > (smallFlash false)._chip.capacity ∧
    (_addressCheck sampleDefines (smallFlash false) 2000 0).1 = true ∧
    (_addressCheck sampleDefines (smallFlash false) 2000 0).2.errorcode
      ≠ sampleDefines.OUTOFBOUNDS ∧
    (_addressCheck sampleDefines (smallFlash false) 2000 0).2._currentAddress = 2000 := by
  decide

/-- C1, amended: on an identified device (eraseTime non-zero, last error neither
UNKNOWNCAP nor NORESPONSE) with pageOverflow disallowed, for every 32-bit address
and every non-empty size with `address + size > capacity`, `_addressCheck`
returns false and sets the last-error code to OUTOFBOUNDS, changing nothing else;
and `_prep` returns that same result for every opcode, whatever the transport and
the fuel. -/
theorem C1_out_of_bounds_refused (K : Defines) (s : SPIFlash) (address size : Nat)
    (hid : s._chip.eraseTime ≠ 0)
    (he1 : s.errorcode ≠ K.UNKNOWNCAP) (he2 : s.errorcode ≠ K.NORESPONSE)
    (hov : s.pageOverflow = false)
    (hcap : s._chip.capacity < 2 ^ 32) (ha : address < 2 ^ 32)
    (hsize : 0 < size) (h : address + size > s._chip.capacity) :
    _addressCheck K s address size = (false, { s with errorcode := K.OUTOFBOUNDS }) ∧
    ∀ (E : Transport) (fuel opcode : Nat),
      _prep K E fuel s opcode address size
        = some (false, { s with errorcode := K.OUTOFBOUNDS }) := by
  have hr : _addressCheck K s address size = (false, { s with errorcode := K.OUTOFBOUNDS }) := by
    rw [addressCheck_hit K s address size he1 he2 hid hcap ha ⟨size - 1, by omega, by omega⟩,
      hov]
    rfl
  refine ⟨hr, ?_⟩
  intro E fuel opcode
  rw [prep_of_addressCheck_false K E fuel s opcode address size (by rw [hr]), hr]

/-- C1, amended, at a concrete request: 25 bytes from address 1000 on a 1 KiB
device, opcode READDATA. -/
theorem C1_out_of_bounds_refused_witness :
    (_addressCheck sampleDefines (smallFlash false) 1000 25).1 = false ∧
    (_addressCheck sampleDefines (smallFlash false) 1000 25).2.errorcode
      = sampleDefines.OUTOFBOUNDS ∧
    _prep sampleDefines ⟨fun _ => 0, fun _ => 0⟩ 5 (smallFlash false) 0x03 1000 25
      = some (false, { smallFlash false with errorcode := sampleDefines.OUTOFBOUNDS }) :=
  have h := C1_out_of_bounds_refused sampleDefines (smallFlash false) 1000 25
    (by decide) (by decide) (by decide) rfl (by decide) (by decide) (by decide) (by decide)
  ⟨by rw [h.1], by rw [h.1], h.2 _ 5 0x03⟩

/-- C2: on an identified device with pageOverflow allowed, for every 32-bit
address and every size whose range `[address, address+size)` holds a byte at or
past the capacity, `_addressCheck` returns true, leaves the last-error code
unchanged and sets the cursor `_currentAddress` to 0; nothing else changes. -/
theorem C2_overflow_wraps_to_zero (K : Defines) (s : SPIFlash) (address size : Nat)
    (hid : s._chip.eraseTime ≠ 0)
    (he1 : s.errorcode ≠ K.UNKNOWNCAP) (he2 : s.errorcode ≠ K.NORESPONSE)
    (hov : s.pageOverflow = true)
    (hcap : s._chip.capacity < 2 ^ 32) (ha : address < 2 ^ 32)
    (h : ∃ i, i < size ∧ address + i ≥ s._chip.capacity) :
    (_addressCheck K s address size).1 = true ∧
    (_addressCheck K s address size).2.errorcode = s.errorcode ∧
    (_addressCheck K s address size).2._currentAddress = 0 ∧
    _addressCheck K s address size = (true, { s with _currentAddress := 0 }) := by
  have hr : _addressCheck K s address size = (true, { s with _currentAddress := 0 }) := by
    rw [addressCheck_hit K s address size he1 he2 hid hcap ha h, hov]
    rfl
  rw [hr]
  exact ⟨rfl, rfl, rfl, rfl⟩

/-- C2 at a concrete request: 25 bytes from address 1000 on a 1 KiB device with
page overflow allowed; byte 24 of the range is at the capacity. -/
theorem C2_overflow_wraps_to_zero_witness :
    (_addressCheck sampleDefines (smallFlash true) 1000 25).1 = true ∧
    (_addressCheck sampleDefines (smallFlash true) 1000 25).2.errorcode = 0 ∧
    (_addressCheck sampleDefines (smallFlash true) 1000 25).2._currentAddress = 0 :=
  have h := C2_overflow_wraps_to_zero sampleDefines (smallFlash true) 1000 25
    (by decide) (by decide) (by decide) rfl (by decide) (by decide)
    ⟨24, by decide, by decide⟩
  ⟨h.1, h.2.1, h.2.2.1⟩

/-- C3: on an identified device, for every address and size with
`address + size <= capacity`, under either overflow policy, `_addressCheck`
returns true, sets the cursor `_currentAddress` to the requested address and
leaves the last-error code, the capacity and the eraseTime unchanged (as every
other field). -/
theorem C3_in_range_cursor_is_address (K : Defines) (s : SPIFlash) (address size : Nat)
    (hid : s._chip.eraseTime ≠ 0)
    (he1 : s.errorcode ≠ K.UNKNOWNCAP) (he2 : s.errorcode ≠ K.NORESPONSE)
    (hcap : s._chip.capacity < 2 ^ 32)
    (h : address + size ≤ s._chip.capacity) :
    (_addressCheck K s address size).1 = true ∧
    (_addressCheck K s address size).2._currentAddress = address ∧
    (_addressCheck K s address size).2.errorcode = s.errorcode ∧
    (_addressCheck K s address size).2._chip.capacity = s._chip.capacity ∧
    (_addressCheck K s address size).2._chip.eraseTime = s._chip.eraseTime ∧
    _addressCheck K s address size = (true, { s with _currentAddress := address }) := by
  rw [addressCheck_inside K s address size he1 he2 hid hcap h]
  exact ⟨rfl, rfl, rfl, rfl, rfl, rfl⟩

/-- C3 at a concrete request: the last 24 bytes of a 1 KiB device, with page
overflow allowed. -/
theorem C3_in_range_cursor_is_address_witness :
    (_addressCheck sampleDefines (smallFlash true) 1000 24).1 = true ∧
    (_addressCheck sampleDefines (smallFlash true) 1000 24).2._currentAddress = 1000 ∧
    (_addressCheck sampleDefines (smallFlash true) 1000 24).2.errorcode = 0 :=
  have h := C3_in_range_cursor_is_address sampleDefines (smallFlash true) 1000 24
    (by decide) (by decide) (by decide) (by decide) (by decide)
  ⟨h.1, h.2.1, h.2.2.1⟩

/-- C4, as stated, fails after an identification that found no device: with
capacity and eraseTime both zero and last error NORESPONSE, `_addressCheck`
returns false but the last-error code stays NORESPONSE, it is not CALLBEGIN. -/
theorem C4_failed_identification_keeps_error :
    ({ freshFlash with errorcode := sampleDefines.NORESPONSE } : SPIFlash)._chip.capacity = 0 ∧
    ({ freshFlash with errorcode := sampleDefines.NORESPONSE } : SPIFlash)._chip.eraseTime = 0 ∧
    (_addressCheck sampleDefines
      { freshFlash with errorcode := sampleDefines.NORESPONSE } 0 1).1 = false ∧
    (_addressCheck sampleDefines
      { freshFlash with errorcode := sampleDefines.NORESPONSE } 0 1).2.errorcode
        = sampleDefines.NORESPONSE ∧
    (_addressCheck sampleDefines
      { freshFlash with errorcode := sampleDefines.NORESPONSE } 0 1).2.errorcode
        ≠ sampleDefines.CALLBEGIN := by
  decide

/-- C4, amended: whenever eraseTime is zero, every request (every address, every
size, either overflow policy) fails the bounds check and leaves the cursor
unchanged; the last-error code becomes CALLBEGIN when the last error recorded is
neither UNKNOWNCAP nor NORESPONSE, and stays as it is when it is one of these
two. -/
theorem C4_unidentified_fails_closed (K : Defines) (s : SPIFlash) (address size : Nat)
    (hzero : s._chip.eraseTime = 0) :
    (_addressCheck K s address size).1 = false ∧
    (_addressCheck K s address size).2._currentAddress = s._currentAddress ∧
    (s.errorcode ≠ K.UNKNOWNCAP → s.errorcode ≠ K.NORESPONSE →
      _addressCheck K s address size = (false, { s with errorcode := K.CALLBEGIN })) ∧
    (s.errorcode = K.UNKNOWNCAP ∨ s.errorcode = K.NORESPONSE →
      _addressCheck K s address size = (false, s)) := by
  unfold _addressCheck
  by_cases he : s.errorcode = K.UNKNOWNCAP ∨ s.errorcode = K.NORESPONSE
  · rw [if_pos he]
    refine ⟨rfl, rfl, ?_, fun _ => rfl⟩
    intro h1 h2
    rcases he with he | he
    · exact absurd he h1
    · exact absurd he h2
  · rw [if_neg he, if_pos hzero]
    exact ⟨rfl, rfl, fun _ _ => rfl, fun h => absurd h he⟩

/-- C4, amended, at a concrete request on a freshly constructed object. -/
theorem C4_unidentified_fails_closed_witness :
    (_addressCheck sampleDefines freshFlash 16 4).1 = false ∧
    (_addressCheck sampleDefines freshFlash 16 4).2._currentAddress = 0 ∧
    (_addressCheck sampleDefines freshFlash 16 4).2.errorcode = sampleDefines.CALLBEGIN :=
  have h := C4_unidentified_fails_closed sampleDefines freshFlash 16 4 rfl
  ⟨h.1, h.2.1, by rw [h.2.2.1 (by decide) (by decide)]⟩

/-- C5: for every opcode, address and size, when the bounds check fails, `_prep`
(in both of its variants) returns false with the state the bounds check left,
whatever the fuel; the log of transport calls, the count of bytes shifted, the
count of clock readings and the session-open flag SPIBusState are those of the
state before the call. -/
theorem C5_failed_bounds_check_no_bus (K : Defines) (E : Transport) (fuel : Nat)
    (s : SPIFlash) (opcode address size : Nat)
    (hfail : (_addressCheck K s address size).1 = false) :
    ∃ s1, _prep K E fuel s opcode address size = some (false, s1) ∧
      s1 = (_addressCheck K s address size).2 ∧
      s1.wire = s.wire ∧ s1.xfers = s.xfers ∧ s1.ticks = s.ticks ∧
      s1.SPIBusState = s.SPIBusState ∧
      ∀ page_number offset, _getAddress page_number offset = address →
        _prep_page K E fuel s opcode page_number offset size = some (false, s1) := by
  have hf := addressCheck_frame K s address size
  have hp := prep_of_addressCheck_false K E fuel s opcode address size hfail
  refine ⟨_, hp, rfl, hf.1, hf.2.1, hf.2.2.1, hf.2.2.2, ?_⟩
  intro page_number offset hpo
  unfold _prep_page
  simp only [hpo]
  exact hp

/-- C5 at a concrete request: a page program of 25 bytes at address 1000 on a
1 KiB device with page overflow disallowed; the log of transport calls stays
empty and the session-open flag stays false. -/
theorem C5_failed_bounds_check_no_bus_witness :
    ∃ s1, _prep sampleDefines ⟨fun _ => 0, fun _ => 0⟩ 5 (smallFlash false) 0x02 1000 25
        = some (false, s1) ∧
      s1.wire = [] ∧ s1.SPIBusState = false :=
  have h := C5_failed_bounds_check_no_bus sampleDefines ⟨fun _ => 0, fun _ => 0⟩ 5
    (smallFlash false) 0x02 1000 25 (by decide)
  h.elim fun s1 hs => ⟨s1, hs.1, hs.2.2.1, hs.2.2.2.2.2.1⟩

/-! ## Address translation: claim C6 -/

/-- C6: for every page number in 0..65535 and every offset in 0..255,
`_getAddress page offset` equals `(page << 8) + offset = page * 256 + offset`,
the exact sum with no 32-bit wraparound, and the map is injective on these
pairs: a pair in range with the same address is the same pair. -/
theorem C6_getAddress_exact_injective (page offset : Nat)
    (hp : page < 65536) (ho : offset < 256) :
    _getAddress page offset = (page <<< 8) + offset ∧
    _getAddress page offset = page * 256 + offset ∧
    _getAddress page offset < 2 ^ 24 ∧
    ∀ page2 offset2, page2 < 65536 → offset2 < 256 →
      _getAddress page offset = _getAddress page2 offset2 → page = page2 ∧ offset = offset2 := by
  have key : ∀ p o, p < 65536 → o < 256 → _getAddress p o = p * 256 + o := by
    intro p o h1 h2
    unfold _getAddress
    simp only [Nat.shiftLeft_eq]
    omega
  refine ⟨?_, key page offset hp ho, ?_, ?_⟩
  · rw [key page offset hp ho, Nat.shiftLeft_eq]
  · rw [key page offset hp ho]; omega
  · intro page2 offset2 hp2 ho2 heq
    rw [key page offset hp ho, key page2 offset2 hp2 ho2] at heq
    omega

/-- C6 at page 3, offset 7: the address is 775, and offset 8 of the same page
has another address. -/
theorem C6_getAddress_exact_injective_witness :
    _getAddress 3 7 = 3 * 256 + 7 ∧ _getAddress 3 7 ≠ _getAddress 3 8 :=
  have h := C6_getAddress_exact_injective 3 7 (by decide) (by decide)
  ⟨h.2.1, fun heq => absurd (h.2.2.2 3 8 (by decide) (by decide) heq).2 (by decide)⟩

/-! ## Lemmas on the transport frames and the identity resolver -/

theorem nextByte_regs (E : Transport) (s : SPIFlash) (d : Nat) :
    (_nextByte E s d).2.regs = s.regs := rfl

theorem CHIP_DESELECT_regs (s : SPIFlash) : (CHIP_DESELECT s).regs = s.regs := rfl

theorem millis_regs (E : Transport) (s : SPIFlash) : (millis E s).2.regs = s.regs := rfl

theorem transferAddress_regs (E : Transport) (s : SPIFlash) :
    (_transferAddress E s).regs = s.regs := rfl

theorem beginSPI_regs (K : Defines) (E : Transport) (s : SPIFlash) (opcode : Nat) :
    (_beginSPI K E s opcode).regs = s.regs := by
  simp only [_beginSPI]
  split_ifs <;> simp only [transferAddress_regs, nextByte_regs] <;> rfl

theorem readStat1_regs (K : Defines) (E : Transport) (s : SPIFlash) :
    (_readStat1 K E s).2.regs = s.regs := by
  unfold _readStat1
  simp only [CHIP_DESELECT_regs, nextByte_regs, beginSPI_regs]

/-- A busy-poll that succeeds leaves the descriptor, the last-error code, the
overflow policy and the cursor as they were. -/
theorem notBusy_do_regs (K : Defines) (E : Transport) (timeout startTime : Nat) :
    ∀ (fuel : Nat) (s s1 : SPIFlash),
      _notBusy_do K E timeout startTime fuel s = some (true, s1) → s1.regs = s.regs := by
  intro fuel
  induction fuel with
  | zero => intro s s1 h; simp [_notBusy_do] at h
  | succ n ih =>
    intro s s1 h
    unfold _notBusy_do at h
    simp only at h
    have hbase : (millis E { (_readStat1 K E s).2 with state := (_readStat1 K E s).1 }).2.regs
        = s.regs := by
      rw [millis_regs]
      exact readStat1_regs K E s
    split_ifs at h
    · simp at h
    · rw [ih _ _ h]; exact hbase
    · simp only [Option.some.injEq, Prod.mk.injEq, true_and] at h
      rw [← h]; exact hbase

theorem notBusy_regs (K : Defines) (E : Transport) (fuel : Nat) (s s1 : SPIFlash)
    (timeout : Nat) (h : _notBusy K E fuel s timeout = some (true, s1)) :
    s1.regs = s.regs := by
  unfold _notBusy at h
  rw [notBusy_do_regs K E _ _ _ _ _ h, millis_regs]

theorem chipID_unlock_regs (K : Defines) (E : Transport) (s : SPIFlash) :
    (_chipID_unlock K E s).regs = s.regs := by
  unfold _chipID_unlock
  simp only [CHIP_DESELECT_regs, nextByte_regs, beginSPI_regs, readStat1_regs]

/-- The JEDEC frame stores the three bytes of the response and changes nothing
else of the descriptor, the last-error code, the overflow policy or the cursor. -/
theorem getJedecId_read_regs (K : Defines) (E : Transport) (s : SPIFlash) :
    (_getJedecId_read K E s).regs =
      ({ s._chip with
          manufacturerID := jedecByte K E s 0
          memoryTypeID := jedecByte K E s 1
          capacityID := jedecByte K E s 2 },
        s.errorcode, s.pageOverflow, s._currentAddress) := by
  have h := beginSPI_regs K E s K.JEDECID
  simp only [SPIFlash.regs, Prod.mk.injEq] at h
  obtain ⟨h1, h2, h3, h4⟩ := h
  simp only [_getJedecId_read, jedecByte, _nextByte, xfer, CHIP_DESELECT, SPIFlash.regs,
    h1, h2, h3, h4, Nat.add_zero]

theorem getJedecId_read_chip (K : Defines) (E : Transport) (s : SPIFlash) :
    (_getJedecId_read K E s)._chip =
      { s._chip with
          manufacturerID := jedecByte K E s 0
          memoryTypeID := jedecByte K E s 1
          capacityID := jedecByte K E s 2 } :=
  congrArg Prod.fst (getJedecId_read_regs K E s)

theorem getJedecId_read_errorcode (K : Defines) (E : Transport) (s : SPIFlash) :
    (_getJedecId_read K E s).errorcode = s.errorcode :=
  congrArg (fun r => r.2.1) (getJedecId_read_regs K E s)

/-- What `_getJedecId` returns once its busy-poll has succeeded in state `s1`. -/
theorem getJedecId_eval (K : Defines) (E : Transport) (fuel : Nat) (s s1 : SPIFlash)
    (hnb : _notBusy K E fuel s K.BUSY_TIMEOUT = some (true, s1)) :
    _getJedecId K E fuel s =
      if jedecByte K E s1 0 = 0 ∨ jedecByte K E s1 1 = 0 ∨ jedecByte K E s1 2 = 0 then
        some (false, { _getJedecId_read K E s1 with errorcode := K.NORESPONSE })
      else some (true, _getJedecId_read K E s1) := by
  unfold _getJedecId
  rw [hnb]
  simp only [getJedecId_read_chip]

/-- The table loop leaves the object alone when no entry from `k` on carries the
capacity code read from the device. -/
theorem chipID_for_nomatch (T : DeviceTable) (hlen : T._capID.length ≤ 255) :
    ∀ (d k fuel : Nat) (s : SPIFlash), k + d = T._capID.length → d < fuel →
      (∀ j, k ≤ j → j < T._capID.length → T._capID.getD j 0 ≠ s._chip.capacityID) →
      _chipID_for T fuel k s = some s := by
  intro d
  induction d with
  | zero =>
    intro k fuel s hk hf _
    obtain ⟨f, rfl⟩ : ∃ f, fuel = f + 1 := ⟨fuel - 1, by omega⟩
    unfold _chipID_for
    rw [if_neg (by omega)]
  | succ n ih =>
    intro k fuel s hk hf hno
    obtain ⟨f, rfl⟩ : ∃ f, fuel = f + 1 := ⟨fuel - 1, by omega⟩
    unfold _chipID_for
    rw [if_pos (by omega)]
    simp only
    rw [if_neg (fun h => hno k (Nat.le_refl k) (by omega) h.symm),
      Nat.mod_eq_of_lt (by omega)]
    exact ih (k + 1) f s (by omega) (by omega) (fun j hj hjl => hno j (by omega) hjl)

/-- The table loop ends with the capacity and erase time of entry `i` when that
entry carries the capacity code read from the device and no later entry does. -/
theorem chipID_for_match (T : DeviceTable) (hlen : T._capID.length ≤ 255) (i c : Nat)
    (hi : i < T._capID.length) (hci : T._capID.getD i 0 = c)
    (hlast : ∀ j, i < j → j < T._capID.length → T._capID.getD j 0 ≠ c) :
    ∀ (d k fuel : Nat) (s : SPIFlash), k + d = T._capID.length → d < fuel → k ≤ i →
      s._chip.capacityID = c →
      _chipID_for T fuel k s = some { s with _chip := { s._chip with
        capacity := T._memSize.getD i 0, eraseTime := T._eraseTime.getD i 0 } } := by
  intro d
  induction d with
  | zero => intro k fuel s hk hf hki _; omega
  | succ n ih =>
    intro k fuel s hk hf hki hs
    obtain ⟨f, rfl⟩ : ∃ f, fuel = f + 1 := ⟨fuel - 1, by omega⟩
    unfold _chipID_for
    rw [if_pos (by omega)]
    simp only
    rw [Nat.mod_eq_of_lt (by omega)]
    by_cases hk_i : k = i
    · subst hk_i
      rw [if_pos (by rw [hs, hci])]
      exact chipID_for_nomatch T hlen n (k + 1) f _ (by omega) (by omega)
        (fun j hj hjl => by simpa [hs] using hlast j (by omega) hjl)
    · split_ifs
      · exact ih (k + 1) f _ (by omega) (by omega) (by omega) hs
      · exact ih (k + 1) f _ (by omega) (by omega) (by omega) hs

/-- In a table of pairwise distinct capacity codes no later entry repeats the
code of entry `i`. -/
theorem nodup_last (l : List Nat) (hnd : l.Nodup) (i : Nat) (hi : i < l.length) :
    ∀ j, i < j → j < l.length → l.getD j 0 ≠ l.getD i 0 := by
  intro j hij hj heq
  rw [List.getD_eq_getElem l 0 hj, List.getD_eq_getElem l 0 hi] at heq
  have := (hnd.getElem_inj_iff).1 heq
  omega

/-- What `_chipID` returns once the busy-poll of `_getJedecId` has succeeded in
state `s1` and a byte of the JEDEC response is zero. -/
theorem chipID_zero_byte (K : Defines) (T : DeviceTable) (E : Transport) (fuel : Nat)
    (s s1 : SPIFlash) (hnb : _notBusy K E fuel s K.BUSY_TIMEOUT = some (true, s1))
    (hz : jedecByte K E s1 0 = 0 ∨ jedecByte K E s1 1 = 0 ∨ jedecByte K E s1 2 = 0) :
    _chipID K T E fuel s
      = some (false, { _getJedecId_read K E s1 with errorcode := K.NORESPONSE }) := by
  unfold _chipID
  rw [getJedecId_eval K E fuel s s1 hnb, if_pos hz]

/-- The state in which `_chipID` inspects the declared capacity, once the
busy-poll has succeeded in state `s1` and the JEDEC response has no zero byte:
its descriptor, last-error code, overflow policy and cursor are those after the
JEDEC frame. -/
theorem chipID_nonzero (K : Defines) (T : DeviceTable) (E : Transport) (fuel : Nat)
    (s s1 : SPIFlash) (hnb : _notBusy K E fuel s K.BUSY_TIMEOUT = some (true, s1))
    (hz : ¬ (jedecByte K E s1 0 = 0 ∨ jedecByte K E s1 1 = 0 ∨ jedecByte K E s1 2 = 0)) :
    ∃ s2 : SPIFlash, s2.regs = (_getJedecId_read K E s1).regs ∧
      _chipID K T E fuel s =
        if s2._chip.capacity = 0 then
          if s2._chip.manufacturerID = K.WINBOND_MANID ∨
              s2._chip.manufacturerID = K.MICROCHIP_MANID then
            match _chipID_for T fuel 0
              { s2 with _chip := { s2._chip with supported := s2._chip.manufacturerID } } with
            | none => none
            | some s3 => some (true, s3)
          else
            some (false,
              { s2 with
                _chip := { s2._chip with supported := s2._chip.manufacturerID }
                errorcode := K.UNKNOWNCAP })
        else
          some (true, { s2 with
            _chip := { s2._chip with eraseTime := s2._chip.capacity / KB8, supported := 0 }
            errorcode := K.UNKNOWNCHIP }) := by
  refine ⟨if (_getJedecId_read K E s1)._chip.manufacturerID = K.MICROCHIP_MANID then
      _chipID_unlock K E (_getJedecId_read K E s1) else _getJedecId_read K E s1, ?_, ?_⟩
  · split_ifs
    · exact chipID_unlock_regs K E _
    · rfl
  · unfold _chipID
    rw [getJedecId_eval K E fuel s s1 hnb, if_neg hz]

/-- After a successful busy-poll from `s` (ending in `s1`) and the JEDEC frame,
the descriptor is that of `s` with the three response bytes stored; last-error
code, overflow policy and cursor are those of `s`. -/
theorem jedec_regs (K : Defines) (E : Transport) (fuel : Nat) (s s1 : SPIFlash)
    (hnb : _notBusy K E fuel s K.BUSY_TIMEOUT = some (true, s1)) :
    (_getJedecId_read K E s1).regs =
      ({ s._chip with
          manufacturerID := jedecByte K E s1 0
          memoryTypeID := jedecByte K E s1 1
          capacityID := jedecByte K E s1 2 },
        s.errorcode, s.pageOverflow, s._currentAddress) := by
  have h := notBusy_regs K E fuel s s1 _ hnb
  simp only [SPIFlash.regs, Prod.mk.injEq] at h
  obtain ⟨h1, h2, h3, h4⟩ := h
  rw [getJedecId_read_regs, h1, h2, h3, h4]

/-! ## The identity resolver: claims C7 to C10 -/

/-- C7: when the device is not busy (the busy-poll of `_getJedecId` succeeds,
ending in state `s1`), for every three-byte JEDEC response, `_getJedecId` fails
with last-error NORESPONSE if and only if at least one of the three bytes is
zero, and so does `_chipID` (the codes UNKNOWNCAP and NORESPONSE being
distinct); in the failing case both return the same state, whose capacity and
eraseTime are those before the call. -/
theorem C7_noresponse_iff_zero_byte (K : Defines) (T : DeviceTable) (E : Transport)
    (fuel : Nat) (s s1 : SPIFlash)
    (hnb : _notBusy K E fuel s K.BUSY_TIMEOUT = some (true, s1))
    (hcodes : K.UNKNOWNCAP ≠ K.NORESPONSE) :
    ((∃ s2, _getJedecId K E fuel s = some (false, s2) ∧ s2.errorcode = K.NORESPONSE) ↔
      (jedecByte K E s1 0 = 0 ∨ jedecByte K E s1 1 = 0 ∨ jedecByte K E s1 2 = 0)) ∧
    ((∃ s2, _chipID K T E fuel s = some (false, s2) ∧ s2.errorcode = K.NORESPONSE) ↔
      (jedecByte K E s1 0 = 0 ∨ jedecByte K E s1 1 = 0 ∨ jedecByte K E s1 2 = 0)) ∧
    ((jedecByte K E s1 0 = 0 ∨ jedecByte K E s1 1 = 0 ∨ jedecByte K E s1 2 = 0) →
      ∃ s2, _getJedecId K E fuel s = some (false, s2) ∧
        _chipID K T E fuel s = some (false, s2) ∧ s2.errorcode = K.NORESPONSE ∧
        s2._chip.capacity = s._chip.capacity ∧ s2._chip.eraseTime = s._chip.eraseTime) := by
  have hregs := jedec_regs K E fuel s s1 hnb
  have hchip : (_getJedecId_read K E s1)._chip = _ := congrArg Prod.fst hregs
  have hfail : (jedecByte K E s1 0 = 0 ∨ jedecByte K E s1 1 = 0 ∨ jedecByte K E s1 2 = 0) →
      ∃ s2, _getJedecId K E fuel s = some (false, s2) ∧
        _chipID K T E fuel s = some (false, s2) ∧ s2.errorcode = K.NORESPONSE ∧
        s2._chip.capacity = s._chip.capacity ∧ s2._chip.eraseTime = s._chip.eraseTime := by
    intro hz
    refine ⟨{ _getJedecId_read K E s1 with errorcode := K.NORESPONSE }, ?_,
      chipID_zero_byte K T E fuel s s1 hnb hz, rfl, ?_, ?_⟩
    · rw [getJedecId_eval K E fuel s s1 hnb, if_pos hz]
    · show (_getJedecId_read K E s1)._chip.capacity = _
      rw [hchip]
    · show (_getJedecId_read K E s1)._chip.eraseTime = _
      rw [hchip]
  refine ⟨⟨?_, fun hz => ?_⟩, ⟨?_, fun hz => ?_⟩, hfail⟩
  · rintro ⟨s2, h2, _⟩
    by_contra hz
    rw [getJedecId_eval K E fuel s s1 hnb, if_neg hz] at h2
    simp at h2
  · obtain ⟨s2, h2, _, h3, _⟩ := hfail hz
    exact ⟨s2, h2, h3⟩
  · rintro ⟨s2, h2, he⟩
    by_contra hz
    obtain ⟨s3, _, h3⟩ := chipID_nonzero K T E fuel s s1 hnb hz
    rw [h3] at h2
    split_ifs at h2
    · split at h2 <;> simp at h2
    · simp only [Option.some.injEq, Prod.mk.injEq, true_and] at h2
      rw [← h2] at he
      exact hcodes he
    · simp at h2
  · obtain ⟨s2, _, h2, h3, _⟩ := hfail hz
    exact ⟨s2, h2, h3⟩

/-- C7 on a floating bus, from a freshly constructed object: the status byte
reads 0, so the poll passes; the three JEDEC bytes read 0, and `_chipID` fails
with NORESPONSE, capacity and eraseTime staying 0. -/
theorem C7_noresponse_iff_zero_byte_witness :
    ∃ s2, _getJedecId sampleDefines floatingBus 4 freshFlash = some (false, s2) ∧
      _chipID sampleDefines sampleTable floatingBus 4 freshFlash = some (false, s2) ∧
      s2.errorcode = sampleDefines.NORESPONSE ∧
      s2._chip.capacity = 0 ∧ s2._chip.eraseTime = 0 :=
  (C7_noresponse_iff_zero_byte sampleDefines sampleTable floatingBus 4 freshFlash
    (polled freshFlash) rfl (by decide)).2.2 (Or.inl rfl)

/-- C8: with no pre-declared capacity, a device that is not busy (the busy-poll
succeeds, ending in `s1`) and a JEDEC response without zero byte whose
manufacturer byte is WINBOND_MANID or MICROCHIP_MANID and whose capacity code is
that of entry `i` of the device table (a table of at most 255 pairwise distinct
capacity codes, with entry `i` present in all three arrays), `_chipID` returns
true, given fuel for one pass over the table, and sets capacity and eraseTime to
`_memSize[i]` and `_eraseTime[i]`. -/
theorem C8_table_entry_populates (K : Defines) (T : DeviceTable) (E : Transport)
    (fuel : Nat) (s s1 : SPIFlash) (i : Nat)
    (hcap0 : s._chip.capacity = 0)
    (hnb : _notBusy K E fuel s K.BUSY_TIMEOUT = some (true, s1))
    (hm : jedecByte K E s1 0 ≠ 0) (ht : jedecByte K E s1 1 ≠ 0) (hc : jedecByte K E s1 2 ≠ 0)
    (hman : jedecByte K E s1 0 = K.WINBOND_MANID ∨ jedecByte K E s1 0 = K.MICROCHIP_MANID)
    (hlen : T._capID.length ≤ 255) (hnodup : T._capID.Nodup)
    (hi : i < T._capID.length) (him : i < T._memSize.length) (hie : i < T._eraseTime.length)
    (hcode : T._capID[i] = jedecByte K E s1 2)
    (hfuel : T._capID.length < fuel) :
    ∃ s2, _chipID K T E fuel s = some (true, s2) ∧
      s2._chip.capacity = T._memSize[i] ∧ s2._chip.eraseTime = T._eraseTime[i] := by
  have hregs := jedec_regs K E fuel s s1 hnb
  obtain ⟨s3, hs3, h3⟩ := chipID_nonzero K T E fuel s s1 hnb (by simp [hm, ht, hc])
  rw [hregs] at hs3
  have hchip : s3._chip = _ := congrArg Prod.fst hs3
  have hcapz : s3._chip.capacity = 0 := by rw [hchip]; exact hcap0
  have hman3 : s3._chip.manufacturerID = K.WINBOND_MANID ∨
      s3._chip.manufacturerID = K.MICROCHIP_MANID := by rw [hchip]; exact hman
  have hcode3 : T._capID.getD i 0 = jedecByte K E s1 2 := by
    rw [List.getD_eq_getElem _ 0 hi]; exact hcode
  rw [if_pos hcapz, if_pos hman3,
    chipID_for_match T hlen i (jedecByte K E s1 2) hi hcode3
      (fun j hij hj => by rw [← hcode3]; exact nodup_last _ hnodup i hi j hij hj)
      T._capID.length 0 fuel _ (by omega) hfuel (Nat.zero_le i)
      (by show s3._chip.capacityID = _; rw [hchip])] at h3
  refine ⟨_, h3, ?_, ?_⟩
  · exact List.getD_eq_getElem _ 0 him
  · exact List.getD_eq_getElem _ 0 hie

/-- C8 on a Winbond device answering capacity code 0x15, entry 1 of the sample
table: capacity 2 MiB and erase time 10000. -/
theorem C8_table_entry_populates_witness :
    ∃ s2, _chipID sampleDefines sampleTable (respondingDevice 0xEF 0x40 0x15) 4 freshFlash
        = some (true, s2) ∧
      s2._chip.capacity = 2097152 ∧ s2._chip.eraseTime = 10000 :=
  C8_table_entry_populates sampleDefines sampleTable (respondingDevice 0xEF 0x40 0x15) 4
    freshFlash (polled freshFlash) 1 rfl rfl (by decide) (by decide) (by decide)
    (Or.inl (by decide)) (by decide) (by decide) (by decide) (by decide) (by decide)
    (by decide) (by decide)

/-- C9: for every pre-declared capacity `c > 0`, on a device that is not busy
(the busy-poll succeeds, ending in `s1`) with a JEDEC response without zero
byte, `_chipID` returns true, keeps capacity `c`, sets eraseTime to the integer
quotient `c / 8192`, sets supported to false (0) and sets the last-error code to
UNKNOWNCHIP. -/
theorem C9_custom_capacity_accepted (K : Defines) (T : DeviceTable) (E : Transport)
    (fuel : Nat) (s s1 : SPIFlash) (c : Nat)
    (hc : 0 < c) (hcap : s._chip.capacity = c)
    (hnb : _notBusy K E fuel s K.BUSY_TIMEOUT = some (true, s1))
    (hm : jedecByte K E s1 0 ≠ 0) (ht : jedecByte K E s1 1 ≠ 0)
    (hcode : jedecByte K E s1 2 ≠ 0) :
    ∃ s2, _chipID K T E fuel s = some (true, s2) ∧
      s2._chip.capacity = c ∧ s2._chip.eraseTime = c / 8192 ∧
      s2._chip.supported = 0 ∧ s2.errorcode = K.UNKNOWNCHIP := by
  have hregs := jedec_regs K E fuel s s1 hnb
  obtain ⟨s3, hs3, h3⟩ := chipID_nonzero K T E fuel s s1 hnb (by simp [hm, ht, hcode])
  rw [hregs] at hs3
  have hchip : s3._chip = _ := congrArg Prod.fst hs3
  have hcap3 : s3._chip.capacity = c := by rw [hchip]; exact hcap
  rw [if_neg (by omega)] at h3
  exact ⟨_, h3, hcap3, by show s3._chip.capacity / KB8 = _; rw [hcap3]; rfl, rfl, rfl⟩

/-- C9 on an object constructed with capacity 65536, against a responding
device: eraseTime becomes 8. -/
theorem C9_custom_capacity_accepted_witness :
    ∃ s2, _chipID sampleDefines sampleTable (respondingDevice 0xEF 0x40 0x15) 4
        (declaredFlash 65536) = some (true, s2) ∧
      s2._chip.capacity = 65536 ∧ s2._chip.eraseTime = 8 ∧
      s2._chip.supported = 0 ∧ s2.errorcode = sampleDefines.UNKNOWNCHIP :=
  C9_custom_capacity_accepted sampleDefines sampleTable (respondingDevice 0xEF 0x40 0x15) 4
    (declaredFlash 65536) (polled (declaredFlash 65536)) 65536 (by decide) rfl rfl
    (by decide) (by decide) (by decide)

/-- C10 at the failing input, a user-declared capacity of 4096 bytes: `_chipID`
accepts it (returns true with UNKNOWNCHIP, capacity 4096) but the erase-time
estimate `4096 / 8192` is 0, and the request for the one byte at address 0,
which lies within the capacity, fails the bounds check with CALLBEGIN. -/
theorem C10_small_custom_capacity_blocked :
    ∃ s2, _chipID sampleDefines sampleTable (respondingDevice 0xEF 0x40 0x15) 4
        (declaredFlash 4096) = some (true, s2) ∧
      s2.errorcode = sampleDefines.UNKNOWNCHIP ∧
      s2._chip.capacity = 4096 ∧ s2._chip.eraseTime = 0 ∧
      0 + 1 ≤ s2._chip.capacity ∧
      (_addressCheck sampleDefines s2 0 1).1 = false ∧
      (_addressCheck sampleDefines s2 0 1).2.errorcode = sampleDefines.CALLBEGIN :=
  ⟨_, rfl, rfl, rfl, rfl, by decide, rfl, rfl⟩

/-- From 8192 bytes on, an accepted user-declared capacity does not block the
operations that follow: with UNKNOWNCHIP distinct from UNKNOWNCAP and NORESPONSE,
every request within the capacity passes the bounds check on the state `_chipID`
returns, with the cursor at the requested address. -/
theorem custom_capacity_usable_from_8192 (K : Defines) (T : DeviceTable) (E : Transport)
    (fuel : Nat) (s s1 : SPIFlash) (c address size : Nat)
    (hc : 8192 ≤ c) (hc32 : c < 2 ^ 32) (hcap : s._chip.capacity = c)
    (hnb : _notBusy K E fuel s K.BUSY_TIMEOUT = some (true, s1))
    (hm : jedecByte K E s1 0 ≠ 0) (ht : jedecByte K E s1 1 ≠ 0)
    (hcode : jedecByte K E s1 2 ≠ 0)
    (hk1 : K.UNKNOWNCHIP ≠ K.UNKNOWNCAP) (hk2 : K.UNKNOWNCHIP ≠ K.NORESPONSE)
    (hin : address + size ≤ c) :
    ∃ s2, _chipID K T E fuel s = some (true, s2) ∧
      (_addressCheck K s2 address size).1 = true ∧
      (_addressCheck K s2 address size).2._currentAddress = address := by
  have hregs := jedec_regs K E fuel s s1 hnb
  obtain ⟨s3, hs3, h3⟩ := chipID_nonzero K T E fuel s s1 hnb (by simp [hm, ht, hcode])
  rw [hregs] at hs3
  have hchip : s3._chip = _ := congrArg Prod.fst hs3
  have hcap3 : s3._chip.capacity = c := by rw [hchip]; exact hcap
  rw [if_neg (by omega)] at h3
  refine ⟨_, h3, ?_⟩
  have hq : 0 < c / KB8 := Nat.div_pos hc (by decide)
  have h := addressCheck_inside K
    { s3 with
      _chip := { s3._chip with eraseTime := s3._chip.capacity / KB8, supported := 0 }
      errorcode := K.UNKNOWNCHIP } address size hk1 hk2
    (by show s3._chip.capacity / KB8 ≠ 0; rw [hcap3]; omega)
    (by show s3._chip.capacity < 2 ^ 32; omega)
    (by show address + size ≤ s3._chip.capacity; omega)
  rw [h]
  exact ⟨rfl, rfl⟩

/-! ## The identity resolver: claim C11 -/

/-- C11: with no pre-declared capacity, a device that is not busy (the busy-poll
succeeds, ending in `s1`) and a JEDEC response without zero byte whose
manufacturer byte is neither WINBOND_MANID nor MICROCHIP_MANID, `_chipID`
returns false with last-error UNKNOWNCAP, for every memory-type and capacity
code and every device table; capacity stays zero and eraseTime stays what it
was (zero on a descriptor not yet populated). -/
theorem C11_unrecognized_manufacturer (K : Defines) (T : DeviceTable) (E : Transport)
    (fuel : Nat) (s s1 : SPIFlash)
    (hcap0 : s._chip.capacity = 0)
    (hnb : _notBusy K E fuel s K.BUSY_TIMEOUT = some (true, s1))
    (hm : jedecByte K E s1 0 ≠ 0) (ht : jedecByte K E s1 1 ≠ 0)
    (hcode : jedecByte K E s1 2 ≠ 0)
    (hw : jedecByte K E s1 0 ≠ K.WINBOND_MANID)
    (hmc : jedecByte K E s1 0 ≠ K.MICROCHIP_MANID) :
    ∃ s2, _chipID K T E fuel s = some (false, s2) ∧
      s2.errorcode = K.UNKNOWNCAP ∧
      s2._chip.capacity = 0 ∧ s2._chip.eraseTime = s._chip.eraseTime ∧
      (s._chip.eraseTime = 0 → s2._chip.eraseTime = 0) := by
  have hregs := jedec_regs K E fuel s s1 hnb
  obtain ⟨s3, hs3, h3⟩ := chipID_nonzero K T E fuel s s1 hnb (by simp [hm, ht, hcode])
  rw [hregs] at hs3
  have hchip : s3._chip = _ := congrArg Prod.fst hs3
  have hcapz : s3._chip.capacity = 0 := by rw [hchip]; exact hcap0
  have hman : ¬ (s3._chip.manufacturerID = K.WINBOND_MANID ∨
      s3._chip.manufacturerID = K.MICROCHIP_MANID) := by
    rw [hchip]
    simp [hw, hmc]
  have her : s3._chip.eraseTime = s._chip.eraseTime := by rw [hchip]
  rw [if_pos hcapz, if_neg hman] at h3
  exact ⟨_, h3, rfl, hcapz, her, fun h0 => her.trans h0⟩

/-- C11 on a device answering manufacturer byte 0x1F, which the sample constants
do not recognize: `_chipID` fails with UNKNOWNCAP, capacity and eraseTime stay
zero. -/
theorem C11_unrecognized_manufacturer_witness :
    ∃ s2, _chipID sampleDefines sampleTable (respondingDevice 0x1F 0x84 0x15) 4 freshFlash
        = some (false, s2) ∧
      s2.errorcode = sampleDefines.UNKNOWNCAP ∧
      s2._chip.capacity = 0 ∧ s2._chip.eraseTime = 0 :=
  (C11_unrecognized_manufacturer sampleDefines sampleTable (respondingDevice 0x1F 0x84 0x15)
    4 freshFlash (polled freshFlash) rfl rfl (by decide) (by decide) (by decide)
    (by decide) (by decide)).elim
    fun s2 h => ⟨s2, h.1, h.2.1, h.2.2.1, h.2.2.2.2 rfl⟩

/-! ## Command framing: claim C18 -/

/-- The transport calls with which `_beginSPI` starts, before the bytes of the
frame: the opening of a session when none is open, then the chip select. -/
theorem beginSPI_wire (K : Defines) (E : Transport) (s : SPIFlash) (opcode : Nat) :
    (_beginSPI K E s opcode).wire =
      (s.wire ++ (if s.SPIBusState then [] else [BusCall.beginTransaction])
        ++ [BusCall.chipSelect]) ++
      (if opcode = K.FASTREAD then
        [BusCall.xfer (opcode % 2 ^ 8), BusCall.xfer (K.DUMMYBYTE % 2 ^ 8),
          BusCall.xfer (s._currentAddress >>> 16 % 2 ^ 8),
          BusCall.xfer (s._currentAddress >>> 8 % 2 ^ 8),
          BusCall.xfer (s._currentAddress % 2 ^ 8)]
      else if opcode = K.READDATA ∨ opcode = K.PAGEPROG then
        [BusCall.xfer (opcode % 2 ^ 8),
          BusCall.xfer (s._currentAddress >>> 16 % 2 ^ 8),
          BusCall.xfer (s._currentAddress >>> 8 % 2 ^ 8),
          BusCall.xfer (s._currentAddress % 2 ^ 8)]
      else [BusCall.xfer (opcode % 2 ^ 8)]) := by
  unfold _beginSPI
  cases hb : s.SPIBusState <;>
    simp only [Bool.not_false, Bool.not_true, if_true, Bool.false_eq_true, if_false] <;>
    split_ifs <;>
    simp_all [_transferAddress, _nextByte, xfer, CHIP_SELECT, _startSPIBus]

/-- C18: for every cursor value `a < 2^24` and every opcode byte, `_beginSPI`
appends to the transport log the opening of a session (when none is open), the
chip select, and then: for READDATA and PAGEPROG exactly the four bytes
`opcode, (a >> 16) & 0xFF, (a >> 8) & 0xFF, a & 0xFF`; for FASTREAD the opcode,
the dummy byte and the same three address bytes; for every other opcode the
single opcode byte.  The three address bytes are big-endian:
`b2 * 65536 + b1 * 256 + b0 = a`.  (FASTREAD, being a `case` label of the same
`switch`, differs from READDATA and PAGEPROG.) -/
theorem C18_beginSPI_frame (K : Defines) (E : Transport) (s : SPIFlash) (opcode a : Nat)
    (ha : a < 2 ^ 24) (hcur : s._currentAddress = a) (hop : opcode < 256)
    (hdummy : K.DUMMYBYTE < 256)
    (hd1 : K.FASTREAD ≠ K.READDATA) (hd2 : K.FASTREAD ≠ K.PAGEPROG) :
    (opcode = K.READDATA ∨ opcode = K.PAGEPROG →
      (_beginSPI K E s opcode).wire =
        (s.wire ++ (if s.SPIBusState then [] else [BusCall.beginTransaction])
          ++ [BusCall.chipSelect]) ++
        [BusCall.xfer opcode, BusCall.xfer ((a >>> 16) &&& 0xFF),
          BusCall.xfer ((a >>> 8) &&& 0xFF), BusCall.xfer (a &&& 0xFF)]) ∧
    (opcode = K.FASTREAD →
      (_beginSPI K E s opcode).wire =
        (s.wire ++ (if s.SPIBusState then [] else [BusCall.beginTransaction])
          ++ [BusCall.chipSelect]) ++
        [BusCall.xfer opcode, BusCall.xfer K.DUMMYBYTE, BusCall.xfer ((a >>> 16) &&& 0xFF),
          BusCall.xfer ((a >>> 8) &&& 0xFF), BusCall.xfer (a &&& 0xFF)]) ∧
    (opcode ≠ K.READDATA → opcode ≠ K.PAGEPROG → opcode ≠ K.FASTREAD →
      (_beginSPI K E s opcode).wire =
        (s.wire ++ (if s.SPIBusState then [] else [BusCall.beginTransaction])
          ++ [BusCall.chipSelect]) ++ [BusCall.xfer opcode]) ∧
    ((a >>> 16) &&& 0xFF) * 65536 + ((a >>> 8) &&& 0xFF) * 256 + (a &&& 0xFF) = a := by
  have hmask : ∀ x : Nat, x &&& 0xFF = x % 2 ^ 8 := fun x =>
    Nat.and_pow_two_sub_one_eq_mod x 8
  have hopc : opcode % 2 ^ 8 = opcode := Nat.mod_eq_of_lt hop
  have hdum : K.DUMMYBYTE % 2 ^ 8 = K.DUMMYBYTE := Nat.mod_eq_of_lt hdummy
  have hw := beginSPI_wire K E s opcode
  rw [hcur, hopc, hdum] at hw
  simp only [hmask]
  refine ⟨?_, ?_, ?_, ?_⟩
  · intro h
    have hnf : opcode ≠ K.FASTREAD := by
      rcases h with h | h
      · rw [h]; exact fun e => hd1 e.symm
      · rw [h]; exact fun e => hd2 e.symm
    rw [hw, if_neg hnf, if_pos h]
  · intro h
    rw [hw, if_pos h]
  · intro h1 h2 h3
    rw [hw, if_neg h3,
      if_neg (show ¬ (opcode = K.READDATA ∨ opcode = K.PAGEPROG) by simp [h1, h2])]
  · simp only [Nat.shiftRight_eq_div_pow]
    omega

/-- C18 at cursor 0x012345 with the bus closed: READDATA (0x03) is framed as
`03 01 23 45` after the session opening and the chip select. -/
theorem C18_beginSPI_frame_witness :
    (_beginSPI sampleDefines floatingBus { freshFlash with _currentAddress := 0x012345 }
      0x03).wire =
      [BusCall.beginTransaction, BusCall.chipSelect, BusCall.xfer 0x03, BusCall.xfer 0x01,
        BusCall.xfer 0x23, BusCall.xfer 0x45] :=
  (C18_beginSPI_frame sampleDefines floatingBus { freshFlash with _currentAddress := 0x012345 }
    0x03 0x012345 (by decide) rfl (by decide) (by decide) (by decide) (by decide)).1
    (Or.inl rfl)

/-! ## The suspend check: claim C17 -/

/-- For WINBOND_MANID the suspend check reads status register 2 once and refuses
with SYSSUSPEND exactly when its SUS bit is set. -/
theorem noSuspend_winbond (K : Defines) (E : Transport) (s : SPIFlash)
    (hman : s._chip.manufacturerID = K.WINBOND_MANID) :
    _noSuspend K E s =
      if (_readStat2 K E s).1 &&& K.SUS ≠ 0 then
        (some false, { (_readStat2 K E s).2 with errorcode := K.SYSSUSPEND })
      else (some true, (_readStat2 K E s).2) := by
  unfold _noSuspend
  rw [if_pos hman]

/-- For MICROCHIP_MANID the suspend check reads status register 1, refuses with
SYSSUSPEND when its WSE bit is set, and otherwise reads the register a second
time and refuses with SYSSUSPEND when the WSP bit of that second reading is
set. -/
theorem noSuspend_microchip (K : Defines) (E : Transport) (s : SPIFlash)
    (hne : K.MICROCHIP_MANID ≠ K.WINBOND_MANID)
    (hman : s._chip.manufacturerID = K.MICROCHIP_MANID) :
    _noSuspend K E s =
      if (_readStat1 K E s).1 &&& K.WSE ≠ 0 then
        (some false, { (_readStat1 K E s).2 with errorcode := K.SYSSUSPEND })
      else if (_readStat1 K E (_readStat1 K E s).2).1 &&& K.WSP ≠ 0 then
        (some false, { (_readStat1 K E (_readStat1 K E s).2).2 with
          errorcode := K.SYSSUSPEND })
      else (some true, (_readStat1 K E (_readStat1 K E s).2).2) := by
  unfold _noSuspend
  rw [if_neg (by rw [hman]; exact hne), if_pos hman]

/-- For every other manufacturer the suspend check reaches the end of the
function: no value is returned, no error is recorded, the bus is not used. -/
theorem noSuspend_other (K : Defines) (E : Transport) (s : SPIFlash)
    (hw : s._chip.manufacturerID ≠ K.WINBOND_MANID)
    (hm : s._chip.manufacturerID ≠ K.MICROCHIP_MANID) :
    _noSuspend K E s = (none, s) := by
  unfold _noSuspend
  rw [if_neg hw, if_neg hm]

/-- C17 at the failing input, a descriptor with manufacturer byte 0x1F (neither
WINBOND_MANID 0xEF nor MICROCHIP_MANID 0xBF): `_noSuspend` returns no value (the
function ends without a `return`), the last-error code stays 0 and differs from
SYSSUSPEND, and no transport call is made. -/
theorem C17_other_manufacturer_no_result :
    (_noSuspend sampleDefines floatingBus
      { freshFlash with _chip := ⟨0x1F, 0x84, 0x15, 0x1F, 0, 0, 0⟩ }).1 = none ∧
    (_noSuspend sampleDefines floatingBus
      { freshFlash with _chip := ⟨0x1F, 0x84, 0x15, 0x1F, 0, 0, 0⟩ }).1 ≠ some false ∧
    (_noSuspend sampleDefines floatingBus
      { freshFlash with _chip := ⟨0x1F, 0x84, 0x15, 0x1F, 0, 0, 0⟩ }).2.errorcode = 0 ∧
    (_noSuspend sampleDefines floatingBus
      { freshFlash with _chip := ⟨0x1F, 0x84, 0x15, 0x1F, 0, 0, 0⟩ }).2.errorcode
        ≠ sampleDefines.SYSSUSPEND ∧
    (_noSuspend sampleDefines floatingBus
      { freshFlash with _chip := ⟨0x1F, 0x84, 0x15, 0x1F, 0, 0, 0⟩ }).2.wire = [] := by
  decide

/-! ## The erased check and the retry of identification: claims C14 and C15 -/

/-- A bounds check that passes leaves the last-error code and the descriptor as
they were. -/
theorem addressCheck_true_keeps (K : Defines) (s : SPIFlash) (address size : Nat)
    (h : (_addressCheck K s address size).1 = true) :
    (_addressCheck K s address size).2.errorcode = s.errorcode ∧
    (_addressCheck K s address size).2._chip = s._chip := by
  have hfor : ∀ (left i : Nat) (r : Bool × SPIFlash),
      _addressCheck_for K s address left i = some r → r.1 = true →
      r.2.errorcode = s.errorcode ∧ r.2._chip = s._chip := by
    intro left
    induction left with
    | zero => intro i r h; simp [_addressCheck_for] at h
    | succ n ih =>
      intro i r h hr
      unfold _addressCheck_for at h
      split at h
      · split at h
        · cases h; simp at hr
        · cases h; exact ⟨rfl, rfl⟩
      · exact ih _ _ h hr
  unfold _addressCheck at h ⊢
  split
  · rw [if_pos (by assumption)] at h; simp at h
  · split
    · rename_i h1 h2
      rw [if_neg h1, if_pos h2] at h; simp at h
    · rename_i h1 h2
      rw [if_neg h1, if_neg h2] at h
      split
      · rename_i r hr
        rw [hr] at h
        exact hfor _ _ _ hr h
      · exact ⟨rfl, rfl⟩

/-- The erased check changes neither the descriptor nor the last-error code, the
overflow policy or the cursor, whatever it returns. -/
theorem notPrevWritten_for_regs (K : Defines) (E : Transport) (size : Nat) :
    ∀ (fuel i : Nat) (s : SPIFlash) (r : Bool × SPIFlash),
      _notPrevWritten_for K E size fuel i s = some r → r.2.regs = s.regs := by
  intro fuel
  induction fuel with
  | zero => intro i s r h; simp [_notPrevWritten_for] at h
  | succ n ih =>
    intro i s r h
    unfold _notPrevWritten_for at h
    by_cases hi : i < size
    · rw [if_pos hi] at h
      by_cases hb : (_nextByte E s K.NULLBYTE).1 ≠ 0xFF
      · simp only [if_pos hb] at h
        cases h; rfl
      · simp only [if_neg hb] at h
        rw [ih _ _ _ h]; rfl
    · rw [if_neg hi] at h
      cases h; rfl

theorem notPrevWritten_regs (K : Defines) (E : Transport) (fuel : Nat) (s : SPIFlash)
    (address size : Nat) (r : Bool × SPIFlash)
    (h : _notPrevWritten K E fuel s address size = some r) : r.2.regs = s.regs := by
  unfold _notPrevWritten at h
  rw [notPrevWritten_for_regs K E size _ _ _ _ h, beginSPI_regs]

/-- A page program refused by the erased check: `_prep` returns false with the
state the erased check left, whose last-error code is the one the write-enable
gate left; the erased check records no error of its own. -/
theorem prep_erased_check_refuses (K : Defines) (E : Transport) (fuel : Nat)
    (s s1 s2 s3 s4 : SPIFlash) (address size : Nat) (hhs : K.HIGHSPEED = false)
    (h1 : _addressCheck K s address size = (true, s1))
    (h2 : _notBusy K E fuel s1 K.BUSY_TIMEOUT = some (true, s2))
    (h3 : _writeEnable K E fuel s2 K.WRITEENABLE_TIMEOUT = some (true, s3))
    (h4 : _notPrevWritten K E fuel s3 address size = some (false, s4)) :
    _prep K E fuel s K.PAGEPROG address size = some (false, s4) ∧
    s4.errorcode = s3.errorcode := by
  refine ⟨?_, ?_⟩
  · unfold _prep
    rw [if_pos rfl, h1]
    simp only [h2, h3, hhs, h4, Bool.false_eq_true, if_false]
  · exact congrArg (fun r => r.2.1) (notPrevWritten_regs K E fuel s3 address size _ h4)

/-- C14 at the failing input: a page program of 4 bytes at address 0 on an
identified 1 KiB device whose status reads not busy with the write-enable latch
set and whose memory reads 0x00.  The bounds, busy and write-enable gates pass,
the erased check reads one byte and refuses, and `_prep` returns false; no
PAGEPROG opcode is on the transport log, but the last-error code is still 0: no
error is recorded. -/
theorem C14_refusal_records_no_error :
    sampleDefines.HIGHSPEED = false ∧
    ∃ s4, _prep sampleDefines writtenDevice 4 (smallFlash false) sampleDefines.PAGEPROG 0 4
        = some (false, s4) ∧
      s4.errorcode = 0 ∧ s4.errorcode = (smallFlash false).errorcode ∧
      s4.wire =
        [BusCall.beginTransaction, BusCall.chipSelect, BusCall.xfer 0x05, BusCall.xfer 0,
          BusCall.chipDeselect, BusCall.chipSelect, BusCall.xfer 0x03, BusCall.xfer 0,
          BusCall.xfer 0, BusCall.xfer 0, BusCall.xfer 0, BusCall.chipDeselect] :=
  ⟨rfl, _, rfl, rfl, rfl, rfl⟩

/-- C15 at the failing input: a first identification on a floating bus fails
with NORESPONSE; the second, against a responding Winbond device with a listed
capacity code, returns true with capacity 2 MiB and eraseTime 10000, but the
last-error code is still NORESPONSE, and the request for the byte at address 0
fails the bounds check. -/
theorem C15_retry_still_blocked :
    ∃ s1 s2, _chipID sampleDefines sampleTable lateDevice 4 freshFlash = some (false, s1) ∧
      s1.errorcode = sampleDefines.NORESPONSE ∧
      _chipID sampleDefines sampleTable lateDevice 4 s1 = some (true, s2) ∧
      s2._chip.capacity = 2097152 ∧ s2._chip.eraseTime = 10000 ∧
      s2.errorcode = sampleDefines.NORESPONSE ∧
      0 + 1 ≤ s2._chip.capacity ∧
      (_addressCheck sampleDefines s2 0 1).1 = false ∧
      (_addressCheck sampleDefines s2 0 1).2.errorcode = sampleDefines.NORESPONSE :=
  ⟨_, _, rfl, rfl, rfl, rfl, rfl, rfl, by decide, rfl, rfl⟩

/-! ## Lemmas on the busy-poll -/

/-- One status read, when READSTAT1 is none of the opcodes framed with an
address: the value is the device's answer to the second transfer, two bytes are
shifted, the clock is not read and a session is open afterwards. -/
theorem readStat1_eval (K : Defines) (E : Transport) (s : SPIFlash)
    (h1 : K.READSTAT1 ≠ K.FASTREAD) (h2 : K.READSTAT1 ≠ K.READDATA)
    (h3 : K.READSTAT1 ≠ K.PAGEPROG) :
    (_readStat1 K E s).1 = E.miso (s.xfers + 1) % 2 ^ 8 ∧
    (_readStat1 K E s).2.xfers = s.xfers + 2 ∧
    (_readStat1 K E s).2.ticks = s.ticks ∧
    (_readStat1 K E s).2.SPIBusState = true := by
  unfold _readStat1 _beginSPI
  rw [if_neg h1, if_neg h2, if_neg h3]
  cases hb : s.SPIBusState <;>
    simp [_nextByte, xfer, CHIP_SELECT, CHIP_DESELECT, _startSPIBus, hb]

/-- The state after one round of a poll. -/
theorem pollStep_eval (K : Defines) (E : Transport) (s : SPIFlash)
    (h1 : K.READSTAT1 ≠ K.FASTREAD) (h2 : K.READSTAT1 ≠ K.READDATA)
    (h3 : K.READSTAT1 ≠ K.PAGEPROG) :
    (pollStep K E s).state = statusAt E s.xfers 0 ∧
    (pollStep K E s).xfers = s.xfers + 2 ∧
    (pollStep K E s).ticks = s.ticks + 1 ∧
    (pollStep K E s).SPIBusState = true ∧
    (pollStep K E s).regs = s.regs := by
  obtain ⟨e1, e2, e3, e4⟩ := readStat1_eval K E s h1 h2 h3
  refine ⟨?_, ?_, ?_, ?_, ?_⟩
  · show (_readStat1 K E s).1 = _
    rw [e1]; rfl
  · show (_readStat1 K E s).2.xfers = _
    exact e2
  · show (_readStat1 K E s).2.ticks + 1 = _
    rw [e3]
  · show (_readStat1 K E s).2.SPIBusState = _
    exact e4
  · exact readStat1_regs K E s

/-- One round of the busy-poll: the timeout is tested first, then the busy bit
of the byte just read. -/
theorem notBusy_do_succ (K : Defines) (E : Transport) (timeout startTime fuel : Nat)
    (s : SPIFlash)
    (h1 : K.READSTAT1 ≠ K.FASTREAD) (h2 : K.READSTAT1 ≠ K.READDATA)
    (h3 : K.READSTAT1 ≠ K.PAGEPROG) :
    _notBusy_do K E timeout startTime (fuel + 1) s =
      if elapsedAt E startTime s.ticks 0 > timeout then
        some (false, _endSPI { pollStep K E s with errorcode := K.CHIPBUSY })
      else if statusAt E s.xfers 0 &&& K.BUSY ≠ 0 then
        _notBusy_do K E timeout startTime fuel (pollStep K E s)
      else some (true, pollStep K E s) := by
  obtain ⟨e1, e2, e3, e4⟩ := readStat1_eval K E s h1 h2 h3
  have hst := (pollStep_eval K E s h1 h2 h3).1
  have hclock : (millis E { (_readStat1 K E s).2 with state := (_readStat1 K E s).1 }).1
      = E.clock s.ticks % 2 ^ 32 := by
    show E.clock (_readStat1 K E s).2.ticks % 2 ^ 32 = _
    rw [e3]
  rw [_notBusy_do]
  simp only [hclock]
  rw [← hst]
  rfl

theorem statusAt_shift (E : Transport) (x j : Nat) :
    statusAt E (x + 2) j = statusAt E x (j + 1) := by
  unfold statusAt
  rw [show x + 2 + 2 * j + 1 = x + 2 * (j + 1) + 1 by omega]

theorem elapsedAt_shift (E : Transport) (start tick j : Nat) :
    elapsedAt E start (tick + 1) j = elapsedAt E start tick (j + 1) := by
  unfold elapsedAt
  rw [show tick + 1 + j = tick + (j + 1) by omega]

/-- The busy-poll times out at round `n` when the rounds before it are within
the timeout with the busy bit set and round `n` exceeds the timeout: it returns
false, records CHIPBUSY and closes the session. -/
theorem notBusy_do_timeout (K : Defines) (E : Transport) (timeout startTime : Nat)
    (h1 : K.READSTAT1 ≠ K.FASTREAD) (h2 : K.READSTAT1 ≠ K.READDATA)
    (h3 : K.READSTAT1 ≠ K.PAGEPROG) :
    ∀ (n fuel : Nat) (s : SPIFlash), n < fuel →
      (∀ j, j < n → elapsedAt E startTime s.ticks j ≤ timeout ∧
        statusAt E s.xfers j &&& K.BUSY ≠ 0) →
      elapsedAt E startTime s.ticks n > timeout →
      ∃ s1, _notBusy_do K E timeout startTime fuel s = some (false, s1) ∧
        s1.errorcode = K.CHIPBUSY ∧ s1.SPIBusState = false ∧ s1._chip = s._chip ∧
        s1.pageOverflow = s.pageOverflow ∧ s1._currentAddress = s._currentAddress := by
  intro n
  induction n with
  | zero =>
    intro fuel s hf _ hex
    obtain ⟨f, rfl⟩ : ∃ f, fuel = f + 1 := ⟨fuel - 1, by omega⟩
    rw [notBusy_do_succ K E timeout startTime f s h1 h2 h3, if_pos hex]
    have hr := (pollStep_eval K E s h1 h2 h3).2.2.2.2
    simp only [SPIFlash.regs, Prod.mk.injEq] at hr
    exact ⟨_, rfl, rfl, rfl, hr.1, hr.2.2.1, hr.2.2.2⟩
  | succ m ih =>
    intro fuel s hf hbusy hex
    obtain ⟨f, rfl⟩ : ∃ f, fuel = f + 1 := ⟨fuel - 1, by omega⟩
    have h0 := hbusy 0 (Nat.succ_pos m)
    obtain ⟨_, ex, et, _, hr⟩ := pollStep_eval K E s h1 h2 h3
    simp only [SPIFlash.regs, Prod.mk.injEq] at hr
    rw [notBusy_do_succ K E timeout startTime f s h1 h2 h3,
      if_neg (Nat.not_lt.mpr h0.1), if_pos h0.2]
    obtain ⟨s1, hs1, he, hb, hc, hp, hcur⟩ := ih f (pollStep K E s) (by omega)
      (fun j hj => by
        rw [ex, et, statusAt_shift, elapsedAt_shift]
        exact hbusy (j + 1) (by omega))
      (by rw [et, elapsedAt_shift]; exact hex)
    exact ⟨s1, hs1, he, hb, hc.trans hr.1, hp.trans hr.2.2.1, hcur.trans hr.2.2.2⟩

/-- The busy-poll succeeds at round `n` when the rounds up to it are within the
timeout, the ones before it with the busy bit set and round `n` with it clear:
it returns true with the byte of round `n` cached in `state` and the descriptor,
the last-error code, the overflow policy and the cursor as they were. -/
theorem notBusy_do_ready (K : Defines) (E : Transport) (timeout startTime : Nat)
    (h1 : K.READSTAT1 ≠ K.FASTREAD) (h2 : K.READSTAT1 ≠ K.READDATA)
    (h3 : K.READSTAT1 ≠ K.PAGEPROG) :
    ∀ (n fuel : Nat) (s : SPIFlash), n < fuel →
      (∀ j, j < n → elapsedAt E startTime s.ticks j ≤ timeout ∧
        statusAt E s.xfers j &&& K.BUSY ≠ 0) →
      elapsedAt E startTime s.ticks n ≤ timeout →
      statusAt E s.xfers n &&& K.BUSY = 0 →
      ∃ s1, _notBusy_do K E timeout startTime fuel s = some (true, s1) ∧
        s1.state = statusAt E s.xfers n ∧ s1.regs = s.regs := by
  intro n
  induction n with
  | zero =>
    intro fuel s hf _ hin hclr
    obtain ⟨f, rfl⟩ : ∃ f, fuel = f + 1 := ⟨fuel - 1, by omega⟩
    rw [notBusy_do_succ K E timeout startTime f s h1 h2 h3,
      if_neg (Nat.not_lt.mpr hin), if_neg (by simp [hclr])]
    obtain ⟨es, _, _, _, hr⟩ := pollStep_eval K E s h1 h2 h3
    exact ⟨_, rfl, es, hr⟩
  | succ m ih =>
    intro fuel s hf hbusy hin hclr
    obtain ⟨f, rfl⟩ : ∃ f, fuel = f + 1 := ⟨fuel - 1, by omega⟩
    have h0 := hbusy 0 (Nat.succ_pos m)
    obtain ⟨_, ex, et, _, hr⟩ := pollStep_eval K E s h1 h2 h3
    rw [notBusy_do_succ K E timeout startTime f s h1 h2 h3,
      if_neg (Nat.not_lt.mpr h0.1), if_pos h0.2]
    obtain ⟨s1, hs1, hst, hreg⟩ := ih f (pollStep K E s) (by omega)
      (fun j hj => by
        rw [ex, et, statusAt_shift, elapsedAt_shift]
        exact hbusy (j + 1) (by omega))
      (by rw [et, elapsedAt_shift]; exact hin)
      (by rw [ex, statusAt_shift]; exact hclr)
    refine ⟨s1, hs1, ?_, hreg.trans hr⟩
    rw [hst, ex, statusAt_shift]

/-- A busy-poll that returns true did so at some round `n`: all rounds up to
`n` were within the timeout, those before `n` read the busy bit set and round
`n` read it clear. -/
theorem notBusy_do_true_inv (K : Defines) (E : Transport) (timeout startTime : Nat)
    (h1 : K.READSTAT1 ≠ K.FASTREAD) (h2 : K.READSTAT1 ≠ K.READDATA)
    (h3 : K.READSTAT1 ≠ K.PAGEPROG) :
    ∀ (fuel : Nat) (s s1 : SPIFlash),
      _notBusy_do K E timeout startTime fuel s = some (true, s1) →
      ∃ n, n < fuel ∧ (∀ j, j ≤ n → elapsedAt E startTime s.ticks j ≤ timeout) ∧
        (∀ j, j < n → statusAt E s.xfers j &&& K.BUSY ≠ 0) ∧
        statusAt E s.xfers n &&& K.BUSY = 0 := by
  intro fuel
  induction fuel with
  | zero => intro s s1 h; simp [_notBusy_do] at h
  | succ f ih =>
    intro s s1 h
    rw [notBusy_do_succ K E timeout startTime f s h1 h2 h3] at h
    obtain ⟨_, ex, et, _, _⟩ := pollStep_eval K E s h1 h2 h3
    by_cases hex : elapsedAt E startTime s.ticks 0 > timeout
    · rw [if_pos hex] at h; simp at h
    · rw [if_neg hex] at h
      by_cases hb : statusAt E s.xfers 0 &&& K.BUSY ≠ 0
      · rw [if_pos hb] at h
        obtain ⟨n, hn, hel, hbs, hclr⟩ := ih _ _ h
        rw [et] at hel
        rw [ex] at hbs hclr
        refine ⟨n + 1, by omega, ?_, ?_, ?_⟩
        · intro j hj
          cases j with
          | zero => exact Nat.not_lt.mp hex
          | succ i =>
            have := hel i (by omega)
            rwa [elapsedAt_shift] at this
        · intro j hj
          cases j with
          | zero => exact hb
          | succ i =>
            have := hbs i (by omega)
            rwa [statusAt_shift] at this
        · rwa [statusAt_shift] at hclr
      · refine ⟨0, by omega, ?_, ?_, ?_⟩
        · intro j hj
          have : j = 0 := by omega
          subst this
          exact Nat.not_lt.mp hex
        · intro j hj; omega
        · simpa using hb

theorem busy_bit_set_iff (K : Defines) (hbit : K.BUSY = 1) (b : Nat) :
    b &&& K.BUSY ≠ 0 ↔ b % 2 = 1 := by
  rw [hbit, Nat.and_one_is_mod]
  omega

theorem busy_bit_clear_iff (K : Defines) (hbit : K.BUSY = 1) (b : Nat) :
    b &&& K.BUSY = 0 ↔ b % 2 = 0 := by
  rw [hbit, Nat.and_one_is_mod]

/-- `_notBusy` is its loop started after the clock reading taken on entry. -/
theorem notBusy_eq (K : Defines) (E : Transport) (fuel : Nat) (s : SPIFlash) (timeout : Nat) :
    _notBusy K E fuel s timeout =
      _notBusy_do K E timeout (E.clock s.ticks % 2 ^ 32) fuel (millis E s).2 := rfl

/-! ## The busy-poll: claims C13 and C20 -/

/-- C13: for every timeout budget, if every status-register-1 read made while
the elapsed time is within the budget has the busy bit (bit 0) set and the
clock exceeds the budget at some round `n`, then `_notBusy`, given fuel for
`n + 1` rounds, returns false, sets the last-error code to CHIPBUSY and leaves
the session-open flag SPIBusState false.  (BUSY is the mask of bit 0 and
READSTAT1 is none of the opcodes framed with an address.) -/
theorem C13_busy_poll_times_out (K : Defines) (E : Transport) (fuel : Nat) (s : SPIFlash)
    (timeout n : Nat) (hbit : K.BUSY = 1)
    (h1 : K.READSTAT1 ≠ K.FASTREAD) (h2 : K.READSTAT1 ≠ K.READDATA)
    (h3 : K.READSTAT1 ≠ K.PAGEPROG)
    (hbusy : ∀ j, elapsed E s j ≤ timeout → statusRead E s j % 2 = 1)
    (hexceed : elapsed E s n > timeout) (hfuel : n < fuel) :
    ∃ s1, _notBusy K E fuel s timeout = some (false, s1) ∧
      s1.errorcode = K.CHIPBUSY ∧ s1.SPIBusState = false := by
  have hex : ∃ k, elapsed E s k > timeout := ⟨n, hexceed⟩
  have hfirst := Nat.find_spec hex
  have hmin : ∀ j, j < Nat.find hex → elapsed E s j ≤ timeout := fun j hj =>
    Nat.not_lt.mp (Nat.find_min hex hj)
  have hle : Nat.find hex ≤ n := Nat.find_min' hex hexceed
  obtain ⟨s1, hs1, he, hb, _⟩ := notBusy_do_timeout K E timeout (E.clock s.ticks % 2 ^ 32)
    h1 h2 h3 (Nat.find hex) fuel (millis E s).2 (by omega)
    (fun j hj => ⟨hmin j hj, (busy_bit_set_iff K hbit _).2 (hbusy j (hmin j hj))⟩) hfirst
  exact ⟨s1, hs1, he, hb⟩

/-- C13 on a device that stays busy while the clock advances by 400 per
reading, with a budget of 1000: the third round exceeds the budget and the poll
fails with CHIPBUSY, the session closed. -/
theorem C13_busy_poll_times_out_witness :
    ∃ s1, _notBusy sampleDefines busyDevice 5 freshFlash 1000 = some (false, s1) ∧
      s1.errorcode = sampleDefines.CHIPBUSY ∧ s1.SPIBusState = false :=
  C13_busy_poll_times_out sampleDefines busyDevice 5 freshFlash 1000 2 rfl
    (by decide) (by decide) (by decide) (fun _ _ => rfl) (by decide) (by decide)

/-- C20, as stated, fails in its last sentence: with the busy bit clear on the
first read but a clock that has advanced by 5000 between entry and the first
check, against a budget of 1000, `_notBusy` returns false with CHIPBUSY; it
returns true for no amount of fuel. -/
theorem C20_ready_device_times_out :
    statusRead slowClock freshFlash 0 % 2 = 0 ∧
    (∃ s1, _notBusy sampleDefines slowClock 4 freshFlash 1000 = some (false, s1) ∧
      s1.errorcode = sampleDefines.CHIPBUSY) ∧
    ∀ fuel, ¬ ∃ s1, _notBusy sampleDefines slowClock fuel freshFlash 1000 = some (true, s1) := by
  refine ⟨rfl, ⟨_, rfl, rfl⟩, ?_⟩
  intro fuel
  cases fuel with
  | zero => rintro ⟨s1, h⟩; simp [_notBusy, _notBusy_do] at h
  | succ f =>
    rintro ⟨s1, h⟩
    obtain ⟨s2, hs2, _⟩ := notBusy_do_timeout sampleDefines slowClock 1000
      (slowClock.clock freshFlash.ticks % 2 ^ 32) (by decide) (by decide) (by decide)
      0 (f + 1) (millis slowClock freshFlash).2 (by omega) (fun j hj => by omega)
      (by decide)
    rw [notBusy_eq, hs2] at h
    simp at h

/-- C20, amended: for every timeout and every sequence of status reads and
clock readings, `_notBusy` returns true (for some fuel) exactly when there is a
round `n` whose status read has the busy bit (bit 0) clear, all earlier reads
having it set, while the elapsed time is within the timeout at every round up
to and including `n`; fuel for `n + 1` rounds then gives the result.  Whenever
it returns true the last-error code is unchanged and the cached byte `state` has
the busy bit clear.  In particular, if the busy bit is clear on the first read
and the elapsed time at the first check does not exceed the timeout, the poll
succeeds.  (BUSY is the mask of bit 0 and READSTAT1 is none of the opcodes
framed with an address.) -/
theorem C20_busy_poll_succeeds_iff (K : Defines) (E : Transport) (s : SPIFlash)
    (timeout : Nat) (hbit : K.BUSY = 1)
    (h1 : K.READSTAT1 ≠ K.FASTREAD) (h2 : K.READSTAT1 ≠ K.READDATA)
    (h3 : K.READSTAT1 ≠ K.PAGEPROG) :
    ((∃ fuel s1, _notBusy K E fuel s timeout = some (true, s1)) ↔
      ∃ n, (∀ j, j ≤ n → elapsed E s j ≤ timeout) ∧
        (∀ j, j < n → statusRead E s j % 2 = 1) ∧ statusRead E s n % 2 = 0) ∧
    (∀ n, (∀ j, j ≤ n → elapsed E s j ≤ timeout) →
      (∀ j, j < n → statusRead E s j % 2 = 1) → statusRead E s n % 2 = 0 →
      ∀ fuel, n < fuel → ∃ s1, _notBusy K E fuel s timeout = some (true, s1)) ∧
    (∀ fuel s1, _notBusy K E fuel s timeout = some (true, s1) →
      s1.errorcode = s.errorcode ∧ s1.state % 2 = 0) ∧
    (statusRead E s 0 % 2 = 0 → elapsed E s 0 ≤ timeout →
      ∀ fuel, 0 < fuel → ∃ s1, _notBusy K E fuel s timeout = some (true, s1)) := by
  have hgive : ∀ n, (∀ j, j ≤ n → elapsed E s j ≤ timeout) →
      (∀ j, j < n → statusRead E s j % 2 = 1) → statusRead E s n % 2 = 0 →
      ∀ fuel, n < fuel → ∃ s1, _notBusy K E fuel s timeout = some (true, s1) ∧
        s1.state = statusRead E s n := by
    intro n hel hbs hclr fuel hf
    obtain ⟨s1, hs1, hst, _⟩ := notBusy_do_ready K E timeout (E.clock s.ticks % 2 ^ 32)
      h1 h2 h3 n fuel (millis E s).2 hf
      (fun j hj => ⟨hel j (by omega), (busy_bit_set_iff K hbit _).2 (hbs j hj)⟩)
      (hel n (Nat.le_refl n)) ((busy_bit_clear_iff K hbit _).2 hclr)
    exact ⟨s1, hs1, hst⟩
  have hinv : ∀ fuel s1, _notBusy K E fuel s timeout = some (true, s1) →
      ∃ n, n < fuel ∧ (∀ j, j ≤ n → elapsed E s j ≤ timeout) ∧
        (∀ j, j < n → statusRead E s j % 2 = 1) ∧ statusRead E s n % 2 = 0 := by
    intro fuel s1 h
    obtain ⟨n, hn, hel, hbs, hclr⟩ := notBusy_do_true_inv K E timeout
      (E.clock s.ticks % 2 ^ 32) h1 h2 h3 fuel (millis E s).2 s1 h
    exact ⟨n, hn, hel, fun j hj => (busy_bit_set_iff K hbit _).1 (hbs j hj),
      (busy_bit_clear_iff K hbit _).1 hclr⟩
  refine ⟨⟨?_, ?_⟩, ?_, ?_, ?_⟩
  · rintro ⟨fuel, s1, h⟩
    obtain ⟨n, _, hel, hbs, hclr⟩ := hinv fuel s1 h
    exact ⟨n, hel, hbs, hclr⟩
  · rintro ⟨n, hel, hbs, hclr⟩
    obtain ⟨s1, hs1, _⟩ := hgive n hel hbs hclr (n + 1) (Nat.lt_succ_self n)
    exact ⟨n + 1, s1, hs1⟩
  · intro n hel hbs hclr fuel hf
    obtain ⟨s1, hs1, _⟩ := hgive n hel hbs hclr fuel hf
    exact ⟨s1, hs1⟩
  · intro fuel s1 h
    refine ⟨congrArg (fun r => r.2.1) (notBusy_regs K E fuel s s1 timeout h), ?_⟩
    obtain ⟨n, hn, hel, hbs, hclr⟩ := hinv fuel s1 h
    obtain ⟨s2, hs2, hst⟩ := hgive n hel hbs hclr fuel hn
    rw [h] at hs2
    simp only [Option.some.injEq, Prod.mk.injEq, true_and] at hs2
    rw [hs2, hst]
    exact hclr
  · intro hclr hel fuel hf
    obtain ⟨s1, hs1, _⟩ := hgive 0 (fun j hj => by
      have : j = 0 := by omega
      subst this
      exact hel) (fun j hj => by omega) hclr fuel hf
    exact ⟨s1, hs1⟩

/-- C20, amended, on a floating bus with a clock that stands still: the first
status byte reads 0, the elapsed time is 0, and the poll succeeds with fuel for
one round. -/
theorem C20_busy_poll_succeeds_iff_witness :
    ∃ s1, _notBusy sampleDefines floatingBus 1 freshFlash 1000 = some (true, s1) :=
  (C20_busy_poll_succeeds_iff sampleDefines floatingBus freshFlash 1000 rfl
    (by decide) (by decide) (by decide)).2.2.2 rfl (by decide) 1 (by decide)

/-! ## The erased check: claim C19 -/

/-- With a size below `2^16` the loop of the erased check ends within `size`
reads, given fuel for `size + 1` rounds, and returns true exactly when every
byte read is 0xFF. -/
theorem notPrevWritten_for_small (K : Defines) (E : Transport) (size : Nat)
    (hsize : size < 2 ^ 16) :
    ∀ (left fuel i : Nat) (s : SPIFlash), i + left = size → left < fuel →
      ∃ b s1, _notPrevWritten_for K E size fuel i s = some (b, s1) ∧
        (b = true ↔ ∀ j, j < left → E.miso (s.xfers + j) % 2 ^ 8 = 0xFF) ∧
        s1.xfers ≤ s.xfers + left := by
  intro left
  induction left with
  | zero =>
    intro fuel i s hi hf
    obtain ⟨f, rfl⟩ : ∃ f, fuel = f + 1 := ⟨fuel - 1, by omega⟩
    unfold _notPrevWritten_for
    rw [if_neg (by omega)]
    exact ⟨true, _, rfl, by simp, Nat.le_refl _⟩
  | succ m ih =>
    intro fuel i s hi hf
    obtain ⟨f, rfl⟩ : ∃ f, fuel = f + 1 := ⟨fuel - 1, by omega⟩
    unfold _notPrevWritten_for
    rw [if_pos (by omega)]
    by_cases hb : (_nextByte E s K.NULLBYTE).1 ≠ 0xFF
    · simp only [if_pos hb]
      refine ⟨false, _, rfl, ?_, ?_⟩
      · constructor
        · intro h; simp at h
        · intro h
          exact absurd (h 0 (Nat.succ_pos m)) hb
      · show s.xfers + 1 ≤ _
        omega
    · simp only [if_neg hb]
      rw [Nat.mod_eq_of_lt (by omega)]
      obtain ⟨b, s1, hs1, hiff, hx⟩ := ih f (i + 1) (_nextByte E s K.NULLBYTE).2
        (by omega) (by omega)
      have hxs : (_nextByte E s K.NULLBYTE).2.xfers = s.xfers + 1 := rfl
      rw [hxs] at hiff hx
      refine ⟨b, s1, hs1, ?_, by omega⟩
      rw [hiff]
      constructor
      · intro h j hj
        cases j with
        | zero => exact not_not.mp hb
        | succ k =>
          have := h k (by omega)
          rwa [show s.xfers + 1 + k = s.xfers + (k + 1) by omega] at this
      · intro h j hj
        have := h (j + 1) (by omega)
        rwa [show s.xfers + (j + 1) = s.xfers + 1 + j by omega] at this

/-- With a size of `2^16` or more, the 16-bit loop counter never reaches the
size: on a device whose bytes all read 0xFF the loop of the erased check never
ends, whatever the fuel. -/
theorem notPrevWritten_for_never_ends (K : Defines) (E : Transport) (size : Nat)
    (hsize : 2 ^ 16 ≤ size) (hff : ∀ n, E.miso n % 2 ^ 8 = 0xFF) :
    ∀ (fuel i : Nat) (s : SPIFlash), i < 2 ^ 16 →
      _notPrevWritten_for K E size fuel i s = none := by
  intro fuel
  induction fuel with
  | zero => intro i s _; rfl
  | succ f ih =>
    intro i s hi
    unfold _notPrevWritten_for
    rw [if_pos (by omega)]
    have hb : ¬ (_nextByte E s K.NULLBYTE).1 ≠ 0xFF := by
      show ¬ (E.miso s.xfers % 2 ^ 8 ≠ 0xFF)
      rw [hff]
      simp
    simp only [if_neg hb]
    exact ih _ _ (Nat.mod_lt _ (by decide))

/-- C19 at the failing input, `size = 65536` on a fully erased device: the
erased check returns for no amount of fuel, it does not terminate (each of the
65536 bytes of the range reads 0xFF, so the claim has it return true after at
most 65536 reads). -/
theorem C19_large_size_never_returns :
    65536 < 2 ^ 32 ∧
    (∀ n, erasedDevice.miso n % 2 ^ 8 = 0xFF) ∧
    ∀ fuel, _notPrevWritten sampleDefines erasedDevice fuel (smallFlash false) 0 65536 = none :=
  ⟨by decide, fun _ => rfl, fun fuel =>
    notPrevWritten_for_never_ends sampleDefines erasedDevice 65536 (by decide) (fun _ => rfl)
      fuel 0 _ (by decide)⟩

/-! ## Lemmas on the bus session -/

theorem busOpen_of_session (s s1 : SPIFlash) (h : s1.session = s.session)
    (ho : s.busOpen) : s1.busOpen := by
  simp only [SPIFlash.session, Prod.mk.injEq] at h
  obtain ⟨h1, h2, h3⟩ := h
  exact ⟨h1.trans ho.1, by rw [h2, h3]; exact ho.2⟩

theorem busClosed_of_session (s s1 : SPIFlash) (h : s1.session = s.session)
    (hc : s.busClosed) : s1.busClosed := by
  simp only [SPIFlash.session, Prod.mk.injEq] at h
  obtain ⟨h1, h2, h3⟩ := h
  exact ⟨h1.trans hc.1, by rw [h2, h3]; exact hc.2⟩

theorem nextByte_session (E : Transport) (s : SPIFlash) (d : Nat) :
    (_nextByte E s d).2.session = s.session := by
  simp [SPIFlash.session, _nextByte, xfer, opens, closes, List.count_append]

theorem CHIP_DESELECT_session (s : SPIFlash) : (CHIP_DESELECT s).session = s.session := by
  simp [SPIFlash.session, CHIP_DESELECT, opens, closes, List.count_append]

theorem millis_session (E : Transport) (s : SPIFlash) : (millis E s).2.session = s.session :=
  rfl

theorem opens_append (v w : List BusCall) : opens (v ++ w) = opens v + opens w :=
  List.count_append _ _ _

theorem closes_append (v w : List BusCall) : closes (v ++ w) = closes v + closes w :=
  List.count_append _ _ _

/-- The bytes of a command frame are neither openings nor closings. -/
theorem beginSPI_frame_count (K : Defines) (s : SPIFlash) (opcode : Nat) (frame : List BusCall)
    (h : frame =
      if opcode = K.FASTREAD then
        [BusCall.xfer (opcode % 2 ^ 8), BusCall.xfer (K.DUMMYBYTE % 2 ^ 8),
          BusCall.xfer (s._currentAddress >>> 16 % 2 ^ 8),
          BusCall.xfer (s._currentAddress >>> 8 % 2 ^ 8),
          BusCall.xfer (s._currentAddress % 2 ^ 8)]
      else if opcode = K.READDATA ∨ opcode = K.PAGEPROG then
        [BusCall.xfer (opcode % 2 ^ 8),
          BusCall.xfer (s._currentAddress >>> 16 % 2 ^ 8),
          BusCall.xfer (s._currentAddress >>> 8 % 2 ^ 8),
          BusCall.xfer (s._currentAddress % 2 ^ 8)]
      else [BusCall.xfer (opcode % 2 ^ 8)]) :
    opens frame = 0 ∧ closes frame = 0 := by
  subst h
  split_ifs <;> simp [opens, closes]

/-- Whatever the session was, closed or open, `_beginSPI` leaves one open: it
opens one only when the flag says none is. -/
theorem beginSPI_open (K : Defines) (E : Transport) (s : SPIFlash) (opcode : Nat)
    (h : s.busClosed ∨ s.busOpen) : (_beginSPI K E s opcode).busOpen := by
  have hflag : (_beginSPI K E s opcode).SPIBusState = true := by
    unfold _beginSPI
    cases hb : s.SPIBusState <;>
      simp only [Bool.not_false, Bool.not_true, if_true, Bool.false_eq_true, if_false] <;>
      split_ifs <;>
      simp [_transferAddress, _nextByte, xfer, CHIP_SELECT, _startSPIBus, hb]
  refine ⟨hflag, ?_⟩
  obtain ⟨ho, hc⟩ := beginSPI_frame_count K s opcode _ rfl
  rw [beginSPI_wire, opens_append, closes_append, ho, hc]
  rcases h with ⟨hf, hcnt⟩ | ⟨hf, hcnt⟩
  · rw [hf]
    simp only [opens_append, closes_append, Bool.false_eq_true, if_false]
    simp only [opens, closes] at hcnt ⊢
    simp [hcnt]
  · rw [hf]
    simp only [opens_append, closes_append, if_true]
    simp only [opens, closes] at hcnt ⊢
    simp [hcnt]

theorem endSPI_closed (s : SPIFlash) (h : s.busOpen) : (_endSPI s).busClosed := by
  obtain ⟨_, hc⟩ := h
  refine ⟨rfl, ?_⟩
  simp only [opens, closes] at hc ⊢
  simp [_endSPI, CHIP_DESELECT, List.count_append, hc]

theorem readStat1_open (K : Defines) (E : Transport) (s : SPIFlash)
    (h : s.busClosed ∨ s.busOpen) : (_readStat1 K E s).2.busOpen := by
  unfold _readStat1
  exact busOpen_of_session _ _ (by rw [CHIP_DESELECT_session, nextByte_session])
    (beginSPI_open K E s _ h)

theorem readStat2_open (K : Defines) (E : Transport) (s : SPIFlash)
    (h : s.busClosed ∨ s.busOpen) : (_readStat2 K E s).2.busOpen := by
  unfold _readStat2
  exact busOpen_of_session _ _
    (by rw [CHIP_DESELECT_session, nextByte_session, nextByte_session])
    (beginSPI_open K E s _ h)

theorem pollStep_open (K : Defines) (E : Transport) (s : SPIFlash)
    (h : s.busClosed ∨ s.busOpen) : (pollStep K E s).busOpen :=
  busOpen_of_session _ _ rfl (readStat1_open K E s h)

theorem enableStep_open (K : Defines) (E : Transport) (s : SPIFlash)
    (h : s.busClosed ∨ s.busOpen) : (enableStep K E s).busOpen :=
  pollStep_open K E _
    (Or.inr (busOpen_of_session _ _ (CHIP_DESELECT_session _) (beginSPI_open K E s _ h)))

theorem notBusy_do_unfold (K : Defines) (E : Transport) (timeout startTime fuel : Nat)
    (s : SPIFlash) :
    _notBusy_do K E timeout startTime (fuel + 1) s =
      if ((millis E { (_readStat1 K E s).2 with state := (_readStat1 K E s).1 }).1
          + 2 ^ 32 - startTime) % 2 ^ 32 > timeout then
        some (false, _endSPI { pollStep K E s with errorcode := K.CHIPBUSY })
      else if (pollStep K E s).state &&& K.BUSY ≠ 0 then
        _notBusy_do K E timeout startTime fuel (pollStep K E s)
      else some (true, pollStep K E s) := rfl

theorem writeEnable_do_unfold (K : Defines) (E : Transport) (timeout startTime fuel : Nat)
    (s : SPIFlash) :
    _writeEnable_do K E timeout startTime (fuel + 1) s =
      if ((millis E
            { (_readStat1 K E (CHIP_DESELECT (_beginSPI K E s K.WRITEENABLE))).2 with
              state := (_readStat1 K E (CHIP_DESELECT (_beginSPI K E s K.WRITEENABLE))).1 }).1
          + 2 ^ 32 - startTime) % 2 ^ 32 > timeout then
        some (false, _endSPI { enableStep K E s with errorcode := K.CANTENWRITE })
      else if (enableStep K E s).state &&& K.WRTEN = 0 then
        _writeEnable_do K E timeout startTime fuel (enableStep K E s)
      else some (true, enableStep K E s) := rfl

/-- A busy-poll started with the session closed or open ends with it closed
when it fails and open when it succeeds. -/
theorem notBusy_do_session (K : Defines) (E : Transport) (timeout startTime : Nat) :
    ∀ (fuel : Nat) (s : SPIFlash) (b : Bool) (s1 : SPIFlash), s.busClosed ∨ s.busOpen →
      _notBusy_do K E timeout startTime fuel s = some (b, s1) →
      (b = false → s1.busClosed) ∧ (b = true → s1.busOpen) := by
  intro fuel
  induction fuel with
  | zero => intro s b s1 _ h; simp [_notBusy_do] at h
  | succ f ih =>
    intro s b s1 hs h
    rw [notBusy_do_unfold] at h
    have ho := pollStep_open K E s hs
    split_ifs at h
    · simp only [Option.some.injEq, Prod.mk.injEq] at h
      obtain ⟨rfl, rfl⟩ := h
      exact ⟨fun _ => endSPI_closed _ (busOpen_of_session _ _ rfl ho), fun h => by simp at h⟩
    · exact ih _ _ _ (Or.inr ho) h
    · simp only [Option.some.injEq, Prod.mk.injEq] at h
      obtain ⟨rfl, rfl⟩ := h
      exact ⟨fun h => by simp at h, fun _ => ho⟩

theorem notBusy_session (K : Defines) (E : Transport) (fuel : Nat) (s : SPIFlash)
    (timeout : Nat) (b : Bool) (s1 : SPIFlash) (hs : s.busClosed ∨ s.busOpen)
    (h : _notBusy K E fuel s timeout = some (b, s1)) :
    (b = false → s1.busClosed) ∧ (b = true → s1.busOpen) := by
  rw [notBusy_eq] at h
  refine notBusy_do_session K E _ _ fuel _ b s1 ?_ h
  rcases hs with hs | hs
  · exact Or.inl (busClosed_of_session _ _ (millis_session E s) hs)
  · exact Or.inr (busOpen_of_session _ _ (millis_session E s) hs)

/-- A write-enable poll started with the session closed or open ends with it
closed when it fails and open when it succeeds. -/
theorem writeEnable_do_session (K : Defines) (E : Transport) (timeout startTime : Nat) :
    ∀ (fuel : Nat) (s : SPIFlash) (b : Bool) (s1 : SPIFlash), s.busClosed ∨ s.busOpen →
      _writeEnable_do K E timeout startTime fuel s = some (b, s1) →
      (b = false → s1.busClosed) ∧ (b = true → s1.busOpen) := by
  intro fuel
  induction fuel with
  | zero => intro s b s1 _ h; simp [_writeEnable_do] at h
  | succ f ih =>
    intro s b s1 hs h
    rw [writeEnable_do_unfold] at h
    have ho := enableStep_open K E s hs
    split_ifs at h
    · simp only [Option.some.injEq, Prod.mk.injEq] at h
      obtain ⟨rfl, rfl⟩ := h
      exact ⟨fun _ => endSPI_closed _ (busOpen_of_session _ _ rfl ho), fun h => by simp at h⟩
    · exact ih _ _ _ (Or.inr ho) h
    · simp only [Option.some.injEq, Prod.mk.injEq] at h
      obtain ⟨rfl, rfl⟩ := h
      exact ⟨fun h => by simp at h, fun _ => ho⟩

/-- `_writeEnable` ends with the session closed when it fails; when it succeeds
the session is as it was (the latch was already set, the bus was not used) or
open. -/
theorem writeEnable_session (K : Defines) (E : Transport) (fuel : Nat) (s : SPIFlash)
    (timeout : Nat) (b : Bool) (s1 : SPIFlash) (hs : s.busClosed ∨ s.busOpen)
    (h : _writeEnable K E fuel s timeout = some (b, s1)) :
    (b = false → s1.busClosed) ∧ (b = true → s1.session = s.session ∨ s1.busOpen) := by
  unfold _writeEnable at h
  simp only at h
  have hs2 : (millis E s).2.busClosed ∨ (millis E s).2.busOpen := by
    rcases hs with hs | hs
    · exact Or.inl (busClosed_of_session _ _ (millis_session E s) hs)
    · exact Or.inr (busOpen_of_session _ _ (millis_session E s) hs)
  split_ifs at h
  · obtain ⟨hf, ht⟩ := writeEnable_do_session K E _ _ fuel _ b s1 hs2 h
    exact ⟨hf, fun hb => Or.inr (ht hb)⟩
  · simp only [Option.some.injEq, Prod.mk.injEq] at h
    obtain ⟨rfl, rfl⟩ := h
    exact ⟨fun h => by simp at h, fun _ => Or.inl (millis_session E s)⟩

theorem getJedecId_read_open (K : Defines) (E : Transport) (s : SPIFlash)
    (h : s.busClosed ∨ s.busOpen) : (_getJedecId_read K E s).busOpen := by
  have hsess : (_getJedecId_read K E s).session = (_beginSPI K E s K.JEDECID).session := by
    simp [SPIFlash.session, _getJedecId_read, CHIP_DESELECT, _nextByte, xfer, opens, closes,
      List.count_append]
  exact busOpen_of_session _ _ hsess (beginSPI_open K E s _ h)

theorem chipID_unlock_open (K : Defines) (E : Transport) (s : SPIFlash)
    (h : s.busClosed ∨ s.busOpen) : (_chipID_unlock K E s).busOpen := by
  unfold _chipID_unlock
  have h1 := readStat1_open K E s h
  have h2 := busOpen_of_session _ _ (CHIP_DESELECT_session _)
    (beginSPI_open K E (_readStat1 K E s).2 K.WRITESTATEN (Or.inr h1))
  have h3 := beginSPI_open K E _ K.WRITESTAT (Or.inr h2)
  exact busOpen_of_session _ _ (by rw [CHIP_DESELECT_session, nextByte_session]) h3

theorem chipID_for_session (T : DeviceTable) :
    ∀ (fuel i : Nat) (s s1 : SPIFlash), _chipID_for T fuel i s = some s1 →
      s1.session = s.session := by
  intro fuel
  induction fuel with
  | zero => intro i s s1 h; simp [_chipID_for] at h
  | succ f ih =>
    intro i s s1 h
    unfold _chipID_for at h
    by_cases hi : i < T._capID.length
    · rw [if_pos hi] at h
      simp only at h
      rw [ih _ _ _ h]
      split_ifs <;> rfl
    · rw [if_neg hi] at h
      cases h; rfl

/-- `_getJedecId` started with the session closed or open ends with it open
when it succeeds, and closed when it fails, unless it fails with NORESPONSE. -/
theorem getJedecId_session (K : Defines) (E : Transport) (fuel : Nat) (s : SPIFlash)
    (b : Bool) (s1 : SPIFlash) (hs : s.busClosed ∨ s.busOpen)
    (h : _getJedecId K E fuel s = some (b, s1)) :
    (b = true → s1.busOpen) ∧ (b = false → s1.busClosed ∨ s1.errorcode = K.NORESPONSE) := by
  unfold _getJedecId at h
  cases hnb : _notBusy K E fuel s K.BUSY_TIMEOUT with
  | none => rw [hnb] at h; simp at h
  | some r =>
    obtain ⟨b1, s2⟩ := r
    have hsess := notBusy_session K E fuel s _ b1 s2 hs hnb
    rw [hnb] at h
    cases b1 with
    | false =>
      simp only [Option.some.injEq, Prod.mk.injEq] at h
      obtain ⟨rfl, rfl⟩ := h
      exact ⟨fun h => by simp at h, fun _ => Or.inl (hsess.1 rfl)⟩
    | true =>
      have ho := getJedecId_read_open K E s2 (Or.inr (hsess.2 rfl))
      simp only at h
      split_ifs at h
      · simp only [Option.some.injEq, Prod.mk.injEq] at h
        obtain ⟨rfl, rfl⟩ := h
        exact ⟨fun h => by simp at h, fun _ => Or.inr rfl⟩
      · simp only [Option.some.injEq, Prod.mk.injEq] at h
        obtain ⟨rfl, rfl⟩ := h
        exact ⟨fun _ => ho, fun h => by simp at h⟩

/-- The part of `_chipID` after the JEDEC read and the unlock, run in a state
`s` with a session open: it ends with the session open when it succeeds, and
fails only with UNKNOWNCAP. -/
theorem chipID_tail_session (K : Defines) (T : DeviceTable) (fuel : Nat) (s : SPIFlash)
    (b : Bool) (s1 : SPIFlash) (ho : s.busOpen)
    (h : (if s._chip.capacity = 0 then
          if s._chip.manufacturerID = K.WINBOND_MANID ∨
              s._chip.manufacturerID = K.MICROCHIP_MANID then
            match _chipID_for T fuel 0
              { s with _chip := { s._chip with supported := s._chip.manufacturerID } } with
            | none => none
            | some s3 => some (true, s3)
          else
            some (false,
              { s with
                _chip := { s._chip with supported := s._chip.manufacturerID }
                errorcode := K.UNKNOWNCAP })
        else
          some (true, { s with
            _chip := { s._chip with eraseTime := s._chip.capacity / KB8, supported := 0 }
            errorcode := K.UNKNOWNCHIP })) = some (b, s1)) :
    (b = true → s1.busOpen) ∧ (b = false → s1.errorcode = K.UNKNOWNCAP) := by
  split_ifs at h
  · split at h
    · simp at h
    · rename_i s3 hfor
      simp only [Option.some.injEq, Prod.mk.injEq] at h
      obtain ⟨rfl, rfl⟩ := h
      exact ⟨fun _ => busOpen_of_session _ _
        ((chipID_for_session T _ _ _ _ hfor).trans rfl) ho, fun h => by simp at h⟩
  · simp only [Option.some.injEq, Prod.mk.injEq] at h
    obtain ⟨rfl, rfl⟩ := h
    exact ⟨fun h => by simp at h, fun _ => rfl⟩
  · simp only [Option.some.injEq, Prod.mk.injEq] at h
    obtain ⟨rfl, rfl⟩ := h
    exact ⟨fun _ => busOpen_of_session _ _ rfl ho, fun h => by simp at h⟩

/-- `_chipID` started with the session closed or open ends with it open when it
succeeds, and closed when it fails, unless it fails with NORESPONSE or
UNKNOWNCAP. -/
theorem chipID_session (K : Defines) (T : DeviceTable) (E : Transport) (fuel : Nat)
    (s : SPIFlash) (b : Bool) (s1 : SPIFlash) (hs : s.busClosed ∨ s.busOpen)
    (h : _chipID K T E fuel s = some (b, s1)) :
    (b = true → s1.busOpen) ∧
    (b = false → s1.busClosed ∨ s1.errorcode = K.NORESPONSE ∨ s1.errorcode = K.UNKNOWNCAP) := by
  unfold _chipID at h
  cases hj : _getJedecId K E fuel s with
  | none => rw [hj] at h; simp at h
  | some r =>
    obtain ⟨b1, s2⟩ := r
    have hsess := getJedecId_session K E fuel s b1 s2 hs hj
    rw [hj] at h
    cases b1 with
    | false =>
      simp only [Option.some.injEq, Prod.mk.injEq] at h
      obtain ⟨rfl, rfl⟩ := h
      refine ⟨fun h => by simp at h, fun _ => ?_⟩
      rcases hsess.2 rfl with h1 | h1
      · exact Or.inl h1
      · exact Or.inr (Or.inl h1)
    | true =>
      have ho2 := hsess.1 rfl
      have ho : (if s2._chip.manufacturerID = K.MICROCHIP_MANID then _chipID_unlock K E s2
          else s2).busOpen := by
        split_ifs
        · exact chipID_unlock_open K E s2 (Or.inr ho2)
        · exact ho2
      obtain ⟨ht, hf⟩ := chipID_tail_session K T fuel _ b s1 ho h
      exact ⟨ht, fun hb => Or.inr (Or.inr (hf hb))⟩

theorem addressCheck_session (K : Defines) (s : SPIFlash) (address size : Nat) :
    (_addressCheck K s address size).2.session = s.session := by
  obtain ⟨hw, _, _, hf⟩ := addressCheck_frame K s address size
  simp only [SPIFlash.session, hw, hf]

theorem notPrevWritten_for_session (K : Defines) (E : Transport) (size : Nat) :
    ∀ (fuel i : Nat) (s : SPIFlash) (r : Bool × SPIFlash),
      _notPrevWritten_for K E size fuel i s = some r → r.2.session = s.session := by
  intro fuel
  induction fuel with
  | zero => intro i s r h; simp [_notPrevWritten_for] at h
  | succ n ih =>
    intro i s r h
    unfold _notPrevWritten_for at h
    by_cases hi : i < size
    · rw [if_pos hi] at h
      by_cases hb : (_nextByte E s K.NULLBYTE).1 ≠ 0xFF
      · simp only [if_pos hb] at h
        cases h
        show (CHIP_DESELECT _).session = _
        rw [CHIP_DESELECT_session, nextByte_session]
      · simp only [if_neg hb] at h
        rw [ih _ _ _ h, nextByte_session]
    · rw [if_neg hi] at h
      cases h
      exact CHIP_DESELECT_session s

/-- The erased check leaves a session open, whatever it returns. -/
theorem notPrevWritten_open (K : Defines) (E : Transport) (fuel : Nat) (s : SPIFlash)
    (address size : Nat) (r : Bool × SPIFlash) (hs : s.busClosed ∨ s.busOpen)
    (h : _notPrevWritten K E fuel s address size = some r) : r.2.busOpen := by
  unfold _notPrevWritten at h
  exact busOpen_of_session _ _ (notPrevWritten_for_session K E size _ _ _ _ h)
    (beginSPI_open K E s _ hs)

/-- `_prep` started with the session closed ends with it open when it succeeds,
and closed when it fails, unless it is the erased check that refuses. -/
theorem prep_session (K : Defines) (E : Transport) (fuel : Nat) (s : SPIFlash)
    (opcode address size : Nat) (b : Bool) (s1 : SPIFlash) (hs : s.busClosed)
    (h : _prep K E fuel s opcode address size = some (b, s1)) :
    (b = true → s1.busOpen) ∧
    (b = false → s1.busClosed ∨
      ∃ s3, _notPrevWritten K E fuel s3 address size = some (false, s1)) := by
  unfold _prep at h
  have hs0 := busClosed_of_session _ _ (addressCheck_session K s address size) hs
  rcases hac : _addressCheck K s address size with ⟨b0, s0⟩
  rw [hac] at h hs0
  simp only at hs0
  cases b0 with
  | false =>
    have hres : some (false, s0) = some (b, s1) := by
      by_cases hop : opcode = K.PAGEPROG
      · simpa [hop] using h
      · simpa [hop] using h
    simp only [Option.some.injEq, Prod.mk.injEq] at hres
    obtain ⟨rfl, rfl⟩ := hres
    exact ⟨fun h => by simp at h, fun _ => Or.inl hs0⟩
  | true =>
    cases hnb : _notBusy K E fuel s0 K.BUSY_TIMEOUT with
    | none => simp [hnb] at h
    | some r =>
      obtain ⟨b1, s2⟩ := r
      have hn := notBusy_session K E fuel s0 _ b1 s2 (Or.inl hs0) hnb
      cases b1 with
      | false =>
        have hres : some (false, s2) = some (b, s1) := by
          by_cases hop : opcode = K.PAGEPROG
          · simpa [hop, hnb] using h
          · simpa [hop, hnb] using h
        simp only [Option.some.injEq, Prod.mk.injEq] at hres
        obtain ⟨rfl, rfl⟩ := hres
        exact ⟨fun h => by simp at h, fun _ => Or.inl (hn.1 rfl)⟩
      | true =>
        have ho2 := hn.2 rfl
        by_cases hop : opcode = K.PAGEPROG
        · rw [if_pos hop] at h
          simp only [hnb] at h
          cases hwe : _writeEnable K E fuel s2 K.WRITEENABLE_TIMEOUT with
          | none => simp [hwe] at h
          | some r =>
            obtain ⟨b2, s3⟩ := r
            have hw := writeEnable_session K E fuel s2 _ b2 s3 (Or.inr ho2) hwe
            rw [hwe] at h
            cases b2 with
            | false =>
              simp only [Option.some.injEq, Prod.mk.injEq] at h
              obtain ⟨rfl, rfl⟩ := h
              exact ⟨fun h => by simp at h, fun _ => Or.inl (hw.1 rfl)⟩
            | true =>
              have ho3 : s3.busOpen := by
                rcases hw.2 rfl with h3 | h3
                · exact busOpen_of_session _ _ h3 ho2
                · exact h3
              simp only at h
              cases hhs : K.HIGHSPEED with
              | true =>
                simp only [hhs, if_true, Option.some.injEq, Prod.mk.injEq] at h
                obtain ⟨rfl, rfl⟩ := h
                exact ⟨fun _ => ho3, fun h => by simp at h⟩
              | false =>
                simp only [hhs, Bool.false_eq_true, if_false] at h
                cases hnp : _notPrevWritten K E fuel s3 address size with
                | none => simp [hnp] at h
                | some r =>
                  obtain ⟨b3, s4⟩ := r
                  have ho4 := notPrevWritten_open K E fuel s3 address size _ (Or.inr ho3) hnp
                  rw [hnp] at h
                  cases b3 with
                  | false =>
                    simp only [Option.some.injEq, Prod.mk.injEq] at h
                    obtain ⟨rfl, rfl⟩ := h
                    exact ⟨fun h => by simp at h, fun _ => Or.inr ⟨s3, hnp⟩⟩
                  | true =>
                    simp only [Option.some.injEq, Prod.mk.injEq] at h
                    obtain ⟨rfl, rfl⟩ := h
                    exact ⟨fun _ => ho4, fun h => by simp at h⟩
        · rw [if_neg hop] at h
          simp only [hnb, Option.some.injEq, Prod.mk.injEq] at h
          obtain ⟨rfl, rfl⟩ := h
          exact ⟨fun _ => ho2, fun h => by simp at h⟩

/-! ## The bus session: claim C12 -/

/-- C12, as stated, fails for the status reads: started on a freshly constructed
object (flag false, no opening and no closing on the log), `_readStat1` ends
with SPIBusState true, one session opening on the log and no closing. -/
theorem C12_status_read_leaves_session_open :
    freshFlash.SPIBusState = false ∧
    opens freshFlash.wire = closes freshFlash.wire ∧
    (_readStat1 sampleDefines floatingBus freshFlash).2.SPIBusState = true ∧
    opens (_readStat1 sampleDefines floatingBus freshFlash).2.wire = 1 ∧
    closes (_readStat1 sampleDefines floatingBus freshFlash).2.wire = 0 := by
  decide

/-- C12, amended: every operation started with the bus session closed
(SPIBusState false, as many session closings as openings on the transport log)
ends as follows.  The status reads `_readStat1` and `_readStat2` leave a session
open (SPIBusState true, one opening without closing).  `_notBusy` ends closed
and matched when it fails and open when it succeeds.  `_writeEnable` ends closed
and matched when it fails; when it succeeds the session is untouched or open.
`_getJedecId`, `_chipID` and `_prep` end open when they succeed; when they fail
they end closed and matched, except for `_getJedecId` and `_chipID` failing with
NORESPONSE or UNKNOWNCAP and for `_prep` refused by the erased check, about
which nothing is said. -/
theorem C12_session_after_operations (K : Defines) (T : DeviceTable) (E : Transport)
    (s : SPIFlash) (hflag : s.SPIBusState = false) (hcount : opens s.wire = closes s.wire) :
    ((_readStat1 K E s).2.busOpen ∧ (_readStat2 K E s).2.busOpen) ∧
    (∀ fuel timeout b s1, _notBusy K E fuel s timeout = some (b, s1) →
      (b = false → s1.busClosed) ∧ (b = true → s1.busOpen)) ∧
    (∀ fuel timeout b s1, _writeEnable K E fuel s timeout = some (b, s1) →
      (b = false → s1.busClosed) ∧ (b = true → s1.busClosed ∨ s1.busOpen)) ∧
    (∀ fuel b s1, _getJedecId K E fuel s = some (b, s1) →
      (b = true → s1.busOpen) ∧
      (b = false → s1.busClosed ∨ s1.errorcode = K.NORESPONSE)) ∧
    (∀ fuel b s1, _chipID K T E fuel s = some (b, s1) →
      (b = true → s1.busOpen) ∧
      (b = false → s1.busClosed ∨ s1.errorcode = K.NORESPONSE ∨
        s1.errorcode = K.UNKNOWNCAP)) ∧
    (∀ fuel opcode address size b s1, _prep K E fuel s opcode address size = some (b, s1) →
      (b = true → s1.busOpen) ∧
      (b = false → s1.busClosed ∨
        ∃ s3, _notPrevWritten K E fuel s3 address size = some (false, s1))) := by
  have hs : s.busClosed := ⟨hflag, hcount⟩
  refine ⟨⟨readStat1_open K E s (Or.inl hs), readStat2_open K E s (Or.inl hs)⟩, ?_, ?_, ?_,
    ?_, ?_⟩
  · intro fuel timeout b s1 h
    exact notBusy_session K E fuel s timeout b s1 (Or.inl hs) h
  · intro fuel timeout b s1 h
    obtain ⟨hf, ht⟩ := writeEnable_session K E fuel s timeout b s1 (Or.inl hs) h
    refine ⟨hf, fun hb => ?_⟩
    rcases ht hb with h1 | h1
    · exact Or.inl (busClosed_of_session _ _ h1 hs)
    · exact Or.inr h1
  · intro fuel b s1 h
    exact getJedecId_session K E fuel s b s1 (Or.inl hs) h
  · intro fuel b s1 h
    exact chipID_session K T E fuel s b s1 (Or.inl hs) h
  · intro fuel opcode address size b s1 h
    exact prep_session K E fuel s opcode address size b s1 hs h

/-- C12, amended, on a freshly constructed object: after `_readStat1` the flag
is true and one opening has no closing; a busy-poll that times out ends with the
flag false and openings and closings matched. -/
theorem C12_session_after_operations_witness :
    (_readStat1 sampleDefines floatingBus freshFlash).2.busOpen ∧
    ∃ s1, _notBusy sampleDefines busyDevice 5 freshFlash 1000 = some (false, s1) ∧
      s1.busClosed :=
  have h := C12_session_after_operations sampleDefines sampleTable floatingBus freshFlash
    rfl rfl
  have hb := C12_session_after_operations sampleDefines sampleTable busyDevice freshFlash
    rfl rfl
  ⟨h.1.1, _, rfl, (hb.2.1 5 1000 false _ rfl).1 rfl⟩

/-! ## Lemmas on the descriptor across `_chipID` -/

theorem pollStep_regs (K : Defines) (E : Transport) (s : SPIFlash) :
    (pollStep K E s).regs = s.regs := by
  unfold pollStep
  rw [millis_regs]
  exact readStat1_regs K E s

/-- The busy-poll never changes the descriptor, whatever it returns. -/
theorem notBusy_do_chip (K : Defines) (E : Transport) (timeout startTime : Nat) :
    ∀ (fuel : Nat) (s : SPIFlash) (b : Bool) (s1 : SPIFlash),
      _notBusy_do K E timeout startTime fuel s = some (b, s1) → s1._chip = s._chip := by
  intro fuel
  induction fuel with
  | zero => intro s b s1 h; simp [_notBusy_do] at h
  | succ f ih =>
    intro s b s1 h
    rw [notBusy_do_unfold] at h
    have hc : (pollStep K E s)._chip = s._chip := congrArg Prod.fst (pollStep_regs K E s)
    split_ifs at h
    · simp only [Option.some.injEq, Prod.mk.injEq] at h
      rw [← h.2]
      exact hc
    · rw [ih _ _ _ h, hc]
    · simp only [Option.some.injEq, Prod.mk.injEq] at h
      rw [← h.2]
      exact hc

theorem notBusy_chip (K : Defines) (E : Transport) (fuel : Nat) (s : SPIFlash)
    (timeout : Nat) (b : Bool) (s1 : SPIFlash)
    (h : _notBusy K E fuel s timeout = some (b, s1)) : s1._chip = s._chip := by
  rw [notBusy_eq] at h
  exact notBusy_do_chip K E _ _ _ (millis E s).2 _ _ h

/-- The table loop never changes the capacity code read from the device. -/
theorem chipID_for_capacityID (T : DeviceTable) :
    ∀ (fuel i : Nat) (s s1 : SPIFlash), _chipID_for T fuel i s = some s1 →
      s1._chip.capacityID = s._chip.capacityID := by
  intro fuel
  induction fuel with
  | zero => intro i s s1 h; simp [_chipID_for] at h
  | succ f ih =>
    intro i s s1 h
    unfold _chipID_for at h
    by_cases hi : i < T._capID.length
    · rw [if_pos hi] at h
      simp only at h
      rw [ih _ _ _ h]
      split_ifs <;> rfl
    · rw [if_neg hi] at h
      cases h; rfl

/-- A run of `_chipID` that returns false leaves capacity and eraseTime as they
were. -/
theorem chipID_false_keeps (K : Defines) (T : DeviceTable) (E : Transport) (fuel : Nat)
    (s s1 : SPIFlash) (h : _chipID K T E fuel s = some (false, s1)) :
    s1._chip.capacity = s._chip.capacity ∧ s1._chip.eraseTime = s._chip.eraseTime := by
  cases hnb : _notBusy K E fuel s K.BUSY_TIMEOUT with
  | none => simp [_chipID, _getJedecId, hnb] at h
  | some r =>
    obtain ⟨b1, s2⟩ := r
    cases b1 with
    | false =>
      have hc := notBusy_chip K E fuel s _ _ _ hnb
      simp only [_chipID, _getJedecId, hnb, Option.some.injEq, Prod.mk.injEq, true_and] at h
      rw [← h, hc]
      exact ⟨rfl, rfl⟩
    | true =>
      have hregs := jedec_regs K E fuel s s2 hnb
      by_cases hz : jedecByte K E s2 0 = 0 ∨ jedecByte K E s2 1 = 0 ∨ jedecByte K E s2 2 = 0
      · rw [chipID_zero_byte K T E fuel s s2 hnb hz] at h
        simp only [Option.some.injEq, Prod.mk.injEq, true_and] at h
        have hchip : (_getJedecId_read K E s2)._chip = _ := congrArg Prod.fst hregs
        rw [← h]
        show (_getJedecId_read K E s2)._chip.capacity = _ ∧
          (_getJedecId_read K E s2)._chip.eraseTime = _
        rw [hchip]
        exact ⟨rfl, rfl⟩
      · obtain ⟨s3, hs3, h3⟩ := chipID_nonzero K T E fuel s s2 hnb hz
        rw [hregs] at hs3
        have hchip : s3._chip = _ := congrArg Prod.fst hs3
        rw [h3] at h
        split_ifs at h
        · split at h <;> simp at h
        · simp only [Option.some.injEq, Prod.mk.injEq, true_and] at h
          rw [← h]
          show s3._chip.capacity = _ ∧ s3._chip.eraseTime = _
          rw [hchip]
          exact ⟨rfl, rfl⟩
        · simp at h

/-- A run of `_chipID` that returns true either accepted a declared capacity,
deriving the erase time from it, or ran the table loop on an empty descriptor. -/
theorem chipID_true_inv (K : Defines) (T : DeviceTable) (E : Transport) (fuel : Nat)
    (s s1 : SPIFlash) (h : _chipID K T E fuel s = some (true, s1)) :
    (s._chip.capacity ≠ 0 ∧ s1._chip.capacity = s._chip.capacity ∧
      s1._chip.eraseTime = s._chip.capacity / KB8) ∨
    (s._chip.capacity = 0 ∧
      ∃ s3, s3.errorcode = s.errorcode ∧ _chipID_for T fuel 0 s3 = some s1) := by
  cases hnb : _notBusy K E fuel s K.BUSY_TIMEOUT with
  | none => simp [_chipID, _getJedecId, hnb] at h
  | some r =>
    obtain ⟨b1, s2⟩ := r
    cases b1 with
    | false => simp [_chipID, _getJedecId, hnb] at h
    | true =>
      have hregs := jedec_regs K E fuel s s2 hnb
      by_cases hz : jedecByte K E s2 0 = 0 ∨ jedecByte K E s2 1 = 0 ∨ jedecByte K E s2 2 = 0
      · rw [chipID_zero_byte K T E fuel s s2 hnb hz] at h
        simp at h
      · obtain ⟨s3, hs3, h3⟩ := chipID_nonzero K T E fuel s s2 hnb hz
        rw [hregs] at hs3
        have hchip : s3._chip = _ := congrArg Prod.fst hs3
        have hcap : s3._chip.capacity = s._chip.capacity := by rw [hchip]
        rw [h3] at h
        split_ifs at h with hc0 hman
        · right
          refine ⟨hcap ▸ hc0, ?_⟩
          split at h
          · simp at h
          · rename_i s4 hfor
            simp only [Option.some.injEq, Prod.mk.injEq, true_and] at h
            exact ⟨{ s3 with _chip := { s3._chip with supported := s3._chip.manufacturerID } },
              congrArg (fun r => r.2.1) hs3, h ▸ hfor⟩
        · simp at h
        · left
          simp only [Option.some.injEq, Prod.mk.injEq, true_and] at h
          refine ⟨hcap ▸ hc0, ?_, ?_⟩
          · rw [← h]; exact hcap
          · rw [← h]
            show s3._chip.capacity / KB8 = _
            rw [hcap]

/-! ## The descriptor invariant: claim C16 -/

/-- C16, as stated, fails for a failing run on a user-declared capacity: from a
descriptor with only the declared capacity 65536, on a floating bus, `_chipID`
returns false and leaves capacity 65536 with eraseTime 0, one non-zero and the
other zero. -/
theorem C16_failed_run_keeps_declared_capacity :
    (declaredFlash 65536)._chip.eraseTime = 0 ∧
    ∃ s1, _chipID sampleDefines sampleTable floatingBus 4 (declaredFlash 65536)
        = some (false, s1) ∧
      s1._chip.capacity = 65536 ∧ s1._chip.eraseTime = 0 ∧
      ¬ ((s1._chip.capacity = 0 ∧ s1._chip.eraseTime = 0) ∨
        (s1._chip.capacity ≠ 0 ∧ s1._chip.eraseTime ≠ 0)) :=
  ⟨rfl, _, rfl, rfl, rfl, by decide⟩

/-- On a recognized manufacturer whose capacity code (0x20) is not in the device
table, `_chipID` returns true although capacity and eraseTime stay zero. -/
theorem chipID_unlisted_code_returns_true :
    ∃ s1, _chipID sampleDefines sampleTable (respondingDevice 0xEF 0x40 0x20) 4 freshFlash
        = some (true, s1) ∧
      s1._chip.capacity = 0 ∧ s1._chip.eraseTime = 0 :=
  ⟨_, rfl, rfl, rfl⟩

/-- C16, amended: for a device table of at most 255 pairwise distinct capacity
codes whose capacities and erase times are non-zero, and fuel for one pass over
it: after every run of `_chipID` that returns false, capacity and eraseTime are
what they were before the run (both zero from an empty descriptor); after a run
that returns true on a user-declared capacity of at least 8192 bytes, capacity
is the declared one and eraseTime its quotient by 8192, both non-zero; after a
run that returns true from a descriptor without capacity, with the capacity
code read from the device listed in the table, both are non-zero. -/
theorem C16_descriptor_after_chipID (K : Defines) (T : DeviceTable) (E : Transport)
    (fuel : Nat) (s : SPIFlash)
    (hlen : T._capID.length ≤ 255) (hnodup : T._capID.Nodup)
    (hms : T._memSize.length = T._capID.length)
    (hes : T._eraseTime.length = T._capID.length)
    (hmz : ∀ x, x ∈ T._memSize → x ≠ 0) (hez : ∀ x, x ∈ T._eraseTime → x ≠ 0)
    (hfuel : T._capID.length < fuel) :
    (∀ s1, _chipID K T E fuel s = some (false, s1) →
      s1._chip.capacity = s._chip.capacity ∧ s1._chip.eraseTime = s._chip.eraseTime) ∧
    (∀ s1, 8192 ≤ s._chip.capacity → _chipID K T E fuel s = some (true, s1) →
      s1._chip.capacity = s._chip.capacity ∧ s1._chip.eraseTime = s._chip.capacity / 8192 ∧
      s1._chip.capacity ≠ 0 ∧ s1._chip.eraseTime ≠ 0) ∧
    (∀ s1, s._chip.capacity = 0 → _chipID K T E fuel s = some (true, s1) →
      s1._chip.capacityID ∈ T._capID →
      s1._chip.capacity ≠ 0 ∧ s1._chip.eraseTime ≠ 0) := by
  refine ⟨fun s1 h => chipID_false_keeps K T E fuel s s1 h, ?_, ?_⟩
  · intro s1 hc h
    rcases chipID_true_inv K T E fuel s s1 h with ⟨_, h1, h2⟩ | ⟨h0, _⟩
    · have hq : 0 < s._chip.capacity / KB8 := Nat.div_pos hc (by decide)
      refine ⟨h1, h2, ?_, ?_⟩
      · rw [h1]; omega
      · rw [h2]; omega
    · omega
  · intro s1 h0 h hmem
    rcases chipID_true_inv K T E fuel s s1 h with ⟨hne, _⟩ | ⟨_, s3, _, hfor⟩
    · exact absurd h0 hne
    · have hcid := chipID_for_capacityID T _ _ _ _ hfor
      obtain ⟨i, hi, hget⟩ := List.getElem_of_mem hmem
      have hgetD : T._capID.getD i 0 = s1._chip.capacityID := by
        rw [List.getD_eq_getElem _ 0 hi]; exact hget
      have hm := chipID_for_match T hlen i s1._chip.capacityID hi hgetD
        (fun j hij hj => by rw [← hgetD]; exact nodup_last _ hnodup i hi j hij hj)
        T._capID.length 0 fuel s3 (by omega) hfuel (Nat.zero_le i) hcid.symm
      rw [hfor] at hm
      simp only [Option.some.injEq] at hm
      rw [hm]
      refine ⟨?_, ?_⟩
      · show T._memSize.getD i 0 ≠ 0
        rw [List.getD_eq_getElem _ 0 (by omega)]
        exact hmz _ (List.getElem_mem _)
      · show T._eraseTime.getD i 0 ≠ 0
        rw [List.getD_eq_getElem _ 0 (by omega)]
        exact hez _ (List.getElem_mem _)

/-- C16, amended, on a Winbond device answering the listed capacity code 0x15,
from an empty descriptor: `_chipID` returns true and both capacity and
eraseTime are non-zero. -/
theorem C16_descriptor_after_chipID_witness :
    ∃ s1, _chipID sampleDefines sampleTable (respondingDevice 0xEF 0x40 0x15) 4 freshFlash
        = some (true, s1) ∧
      s1._chip.capacity ≠ 0 ∧ s1._chip.eraseTime ≠ 0 :=
  ⟨_, rfl,
    (C16_descriptor_after_chipID sampleDefines sampleTable (respondingDevice 0xEF 0x40 0x15)
      4 freshFlash (by decide) (by decide) rfl rfl (by decide) (by decide)
      (by decide)).2.2 _ rfl rfl (by decide)⟩

/-! ## The retry of identification, in general -/

theorem chipID_for_errorcode (T : DeviceTable) :
    ∀ (fuel i : Nat) (s s1 : SPIFlash), _chipID_for T fuel i s = some s1 →
      s1.errorcode = s.errorcode := by
  intro fuel
  induction fuel with
  | zero => intro i s s1 h; simp [_chipID_for] at h
  | succ f ih =>
    intro i s s1 h
    unfold _chipID_for at h
    by_cases hi : i < T._capID.length
    · rw [if_pos hi] at h
      simp only at h
      rw [ih _ _ _ h]
      split_ifs <;> rfl
    · rw [if_neg hi] at h
      cases h; rfl

/-- Whatever the device and the table: when `_chipID` returns true on a
descriptor without declared capacity, the last-error code is the one before the
call; if that was NORESPONSE or UNKNOWNCAP, every request then fails the bounds
check, the state unchanged. -/
theorem chipID_success_keeps_error (K : Defines) (T : DeviceTable) (E : Transport)
    (fuel : Nat) (s s1 : SPIFlash) (hcap0 : s._chip.capacity = 0)
    (h : _chipID K T E fuel s = some (true, s1)) :
    s1.errorcode = s.errorcode ∧
    (s.errorcode = K.UNKNOWNCAP ∨ s.errorcode = K.NORESPONSE →
      ∀ address size, _addressCheck K s1 address size = (false, s1)) := by
  have he : s1.errorcode = s.errorcode := by
    rcases chipID_true_inv K T E fuel s s1 h with ⟨hne, _⟩ | ⟨_, s3, h3, hfor⟩
    · exact absurd hcap0 hne
    · rw [chipID_for_errorcode T _ _ _ _ hfor, h3]
  refine ⟨he, fun hs address size => ?_⟩
  unfold _addressCheck
  rw [if_pos (by rw [he]; exact hs)]

end SPIMemory
